import Mathlib

/-!
A shallow embedding of the ha-tools energy/GPS export pipeline
(cmd/energy.go and the gps command file): the data model, metadata
extraction, the minute-average aggregation engine, the batch writer and
the pipeline driver, together with theorems about the specified
properties.

Modelling conventions.
Timestamps are integers counting nanoseconds since the Unix epoch, the
resolution of Go time.Time.  Numeric values are rationals; the spec
states the averaging property up to floating-point epsilon, so the
embedding works with exact arithmetic.  Nullable SQL values are Options.
Calls into the Go standard library that parse external text,
strconv.ParseFloat and json.Unmarshal, are parameters of the embedding
bundled in an Env, so every theorem holds for every possible behaviour
of those primitives unless it instantiates them.
-/

namespace HaTools

/-- Nanoseconds per second (Go time.Second in nanoseconds). -/
def nsPerSecond : Int := 1000000000

/-- Nanoseconds per minute (Go time.Minute in nanoseconds). -/
def nsPerMinute : Int := 60 * nsPerSecond

/-- The Go zero time, January 1 of year 1 UTC, in nanoseconds since the
Unix epoch.  time.Time.IsZero holds exactly at this instant, and the
zero value of time.Time denotes it. -/
def zeroTimeNs : Int := -62135596800 * nsPerSecond

/-- time.Time.Truncate with d = time.Minute rounds the instant down to a
multiple of one minute counted from the zero time.  The zero time is
itself minute-aligned with the Unix epoch, so in epoch nanoseconds this
is flooring to a multiple of nsPerMinute. -/
def truncMinute (t : Int) : Int := t - t % nsPerMinute

/-- Truncation toward zero, as Go's int64 conversion of a float64 and the
integer part returned by math.Modf. -/
def ratTrunc (q : ℚ) : Int := if 0 ≤ q then ⌊q⌋ else ⌈q⌉

/-- A Go float64 as far as the pipeline observes it: NaN, an infinity, or
a finite value (modelled exactly as a rational). -/
inductive GoFloat where
  | nan : GoFloat
  | inf : Bool → GoFloat
  | val : ℚ → GoFloat
deriving DecidableEq, Repr

/-- floatToNullTime converts a nullable fractional Unix-epoch-seconds
value to a nullable timestamp.  math.Modf splits the float into integer
and fractional parts (for an infinity the fractional part is NaN, so
infinities also hit the NaN error branch); time.Unix builds the instant
from whole seconds plus the fractional part scaled to nanoseconds, both
truncated toward zero by the int64 conversions; a resulting instant equal
to the Go zero time is mapped back to an absent value. -/
def floatToNullTime (v : Option GoFloat) : Except String (Option Int) :=
  match v with
  | none => Except.ok none
  | some GoFloat.nan => Except.error "invalid float for timestamp"
  | some (GoFloat.inf _) => Except.error "invalid float for timestamp"
  | some (GoFloat.val q) =>
    let seconds : Int := ratTrunc q
    let frac : ℚ := q - (seconds : ℚ)
    let t : Int := seconds * nsPerSecond + ratTrunc (frac * (nsPerSecond : ℚ))
    if t = zeroTimeNs then Except.ok none else Except.ok (some t)

/-- JSON-style dynamic values, the image of decoding a payload into a Go
map from strings to interface values. -/
inductive JVal where
  | jnull : JVal
  | jbool : Bool → JVal
  | jnum : ℚ → JVal
  | jstr : String → JVal
  | jarr : List JVal → JVal
  | jobj : List (String × JVal) → JVal
deriving Repr

/-- The parsing primitives the pipeline calls in the Go standard library,
kept abstract: parseFloat models strconv.ParseFloat (none on parse
failure) and unmarshal models json.Unmarshal into a map from strings to
dynamic values (none when the payload does not parse as a structured
object). -/
structure Env where
  parseFloat : String → Option ℚ
  unmarshal : String → Option (List (String × JVal))

/-- Go map indexing: a missing key yields the nil interface value. -/
def lookupAttr (attrs : List (String × JVal)) (k : String) : JVal :=
  match attrs.find? (fun p => p.1 == k) with
  | some p => p.2
  | none => JVal.jnull

/-- Modelled from the spec: pickString is called by extractEnergyMetadata
but its definition is not among the provided source files.  Per the spec
the extractor yields optional descriptive string fields and is strict
about other shapes, so a dynamic value contributes exactly when it is a
string. -/
def pickString (v : JVal) : Option String :=
  match v with
  | JVal.jstr s => some s
  | _ => none

/-- pickFloat accepts the numeric representations the Go function
tolerates: a number, or a non-empty numeric string (parsed with
strconv.ParseFloat); nil and every other shape yield absent.  The Go
cases for float32, int, int64 and json.Number are further numeric
representations, all covered by the numeric constructor here. -/
def pickFloat (parseFloat : String → Option ℚ) (v : JVal) : Option ℚ :=
  match v with
  | JVal.jnum q => some q
  | JVal.jstr s => if s = "" then none else parseFloat s
  | _ => none

/-- strings.TrimSpace: drop whitespace from both ends. -/
def trimSpace (s : String) : String :=
  String.mk (((s.data.dropWhile Char.isWhitespace).reverse.dropWhile Char.isWhitespace).reverse)

/-- Metadata attached to an energy reading (all fields nullable). -/
structure energyMetadata where
  Unit : Option String
  DeviceClass : Option String
  StateClass : Option String
  FriendlyName : Option String
deriving DecidableEq, Repr

/-- The zero value of energyMetadata: every field absent. -/
def energyMetadata.empty : energyMetadata :=
  { Unit := none, DeviceClass := none, StateClass := none, FriendlyName := none }

/-- extractEnergyMetadata parses the shared-attributes payload of an
energy reading.  A payload that is empty after trimming whitespace yields
the empty metadata with no error; otherwise the trimmed payload must
unmarshal as a structured object, and failure to do so is an error. -/
def extractEnergyMetadata (unmarshal : String → Option (List (String × JVal)))
    (raw : String) : Except String energyMetadata :=
  let trimmed := trimSpace raw
  if trimmed = "" then Except.ok energyMetadata.empty
  else
    match unmarshal trimmed with
    | none => Except.error "unmarshal shared_attrs"
    | some attrs =>
      Except.ok
        { Unit := pickString (lookupAttr attrs "unit_of_measurement")
          DeviceClass := pickString (lookupAttr attrs "device_class")
          StateClass := pickString (lookupAttr attrs "state_class")
          FriendlyName := pickString (lookupAttr attrs "friendly_name") }

/-- extractCoordinates parses the shared-attributes payload of a GPS
reading into nullable latitude, longitude and accuracy.  Only the
exactly-empty payload short-circuits to the all-absent result; any other
payload, whitespace included, is passed to the unmarshaller. -/
def extractCoordinates (env : Env) (raw : String) :
    Except String (Option ℚ × Option ℚ × Option ℚ) :=
  if raw = "" then Except.ok (none, none, none)
  else
    match env.unmarshal raw with
    | none => Except.error "unmarshal shared_attrs"
    | some attrs =>
      Except.ok
        (pickFloat env.parseFloat (lookupAttr attrs "latitude"),
         pickFloat env.parseFloat (lookupAttr attrs "longitude"),
         pickFloat env.parseFloat (lookupAttr attrs "gps_accuracy"))

/-- parseNumericState parses the raw state string into a nullable float:
absent for the empty string and for any string the float parser rejects,
the parsed value otherwise.  It never fails. -/
def parseNumericState (parseFloat : String → Option ℚ) (raw : String) : Option ℚ :=
  if raw = "" then none
  else
    match parseFloat raw with
    | none => none
    | some f => some f

/-- An environment whose parsing primitives always fail, standing for the
standard library's behaviour on inputs that are not valid JSON objects
and not numeric strings (for example a whitespace-only payload or the
state string "unavailable"). -/
def envNone : Env :=
  { parseFloat := fun _ => none, unmarshal := fun _ => none }

/-- One exported row (the energyRow struct of cmd/energy.go). -/
structure energyRow where
  stateID : Int
  entityID : String
  state : String
  numericState : Option ℚ
  meta : energyMetadata
  lastUpdated : Option Int
deriving DecidableEq, Repr

/-- The Time field of a Go sql.NullTime: the stored instant when valid,
the zero time otherwise. -/
def nullTimeValue (o : Option Int) : Int := o.getD zeroTimeNs

/-- The Float64 field of a Go sql.NullFloat64: the stored value when
valid, zero otherwise. -/
def rowVal (row : energyRow) : ℚ := row.numericState.getD 0

/-- Character-list version of substring search. -/
def startsWithList : List Char → List Char → Bool
  | _, [] => true
  | [], _ :: _ => false
  | a :: as, b :: bs => a = b && startsWithList as bs

/-- Whether the pattern occurs somewhere in the haystack. -/
def containsTokenAux : List Char → List Char → Bool
  | [], pat => pat.isEmpty
  | hay@(_ :: rest), pat => startsWithList hay pat || containsTokenAux rest pat

/-- strings.Contains on the embedding's strings. -/
def strContainsToken (s token : String) : Bool :=
  containsTokenAux s.data token.data

/-- strings.ToLower (ASCII case folding suffices for the entity slugs the
tool matches). -/
def lowerString (s : String) : String := String.mk (s.data.map Char.toLower)

/-- The fixed markers of high-frequency signals that get minute-averaged. -/
def energyMinuteAverageTokens : List String :=
  ["_voltage", "_current", "_current_consumption"]

/-- needsMinuteAverage: the lowered entity id contains one of the
high-frequency markers. -/
def needsMinuteAverage (entityID : String) : Bool :=
  energyMinuteAverageTokens.any (fun token => strContainsToken (lowerString entityID) token)

/-- shouldAggregateRow: a reading is eligible for aggregation when it has
a valid timestamp, a valid numeric value, and a marked entity id. -/
def shouldAggregateRow (row : energyRow) : Bool :=
  row.lastUpdated.isSome && row.numericState.isSome && needsMinuteAverage row.entityID

/-- The state of the minute averager (fields as in cmd/energy.go). -/
structure minuteAverager where
  active : Bool
  entityID : String
  minute : Int
  sum : ℚ
  count : Nat
  maxTime : Int
  maxTimeValid : Bool
  stateID : Int
  meta : energyMetadata
deriving DecidableEq, Repr

/-- The zero/reset state of the averager (Go reset sets every field to
its zero value; the zero value of a time.Time is the zero time). -/
def minuteAverager.resetState : minuteAverager :=
  { active := false, entityID := "", minute := zeroTimeNs, sum := 0, count := 0,
    maxTime := zeroTimeNs, maxTimeValid := false, stateID := 0,
    meta := energyMetadata.empty }

/-- newMinuteAverager starts idle. -/
def newMinuteAverager : minuteAverager := minuteAverager.resetState

/-- strconv.FormatFloat with format f and precision -1: the value
rendered as a shortest-round-trip decimal string.  In the exact embedding
this is the canonical rendering of the rational. -/
def formatFloat (q : ℚ) : String := toString q

/-- The aggregate row a flush emits: the averaged value with the
representative's identity, metadata and timestamp. -/
def minuteAverager.aggRow (m : minuteAverager) : energyRow :=
  { stateID := m.stateID, entityID := m.entityID,
    state := formatFloat (m.sum / (m.count : ℚ)),
    numericState := some (m.sum / (m.count : ℚ)),
    meta := m.meta,
    lastUpdated := some m.maxTime }

/-- Flush: a no-op when idle; an accumulating group with a zero count or
no representative is discarded; otherwise the average is emitted.  The
state is reset in every accumulating case. -/
def minuteAverager.Flush (m : minuteAverager) : minuteAverager × Option energyRow :=
  if m.active = false then (m, none)
  else if m.count = 0 ∨ m.maxTimeValid = false then (minuteAverager.resetState, none)
  else (minuteAverager.resetState, some m.aggRow)

/-- Add: flush first on a group-boundary crossing (entity or minute
change), open a new group when idle, fold the value into the running sum,
and update the representative by the latest-timestamp rule with the
larger source row id breaking exact ties. -/
def minuteAverager.Add (m : minuteAverager) (row : energyRow) :
    minuteAverager × Option energyRow :=
  let minute := truncMinute (nullTimeValue row.lastUpdated)
  let p :=
    if m.active = true ∧ (row.entityID ≠ m.entityID ∨ minute ≠ m.minute) then m.Flush
    else (m, none)
  let m1 := p.1
  let m2 :=
    if m1.active = false then
      { m1 with active := true, entityID := row.entityID, minute := minute,
                sum := 0, count := 0, maxTime := zeroTimeNs, maxTimeValid := false }
    else m1
  let m3 := { m2 with sum := m2.sum + rowVal row, count := m2.count + 1 }
  let t := nullTimeValue row.lastUpdated
  let m4 :=
    if m3.maxTimeValid = false ∨ m3.maxTime < t ∨ (t = m3.maxTime ∧ m3.stateID < row.stateID) then
      { m3 with maxTime := t, maxTimeValid := true, stateID := row.stateID, meta := row.meta }
    else m3
  (m4, p.2)

/-- Feeding a list of readings to Add one by one, collecting every row
emitted along the way. -/
def addAll : minuteAverager → List energyRow → minuteAverager × List energyRow
  | m, [] => (m, [])
  | m, row :: rows =>
    let p := m.Add row
    let q := addAll p.1 rows
    (q.1, p.2.toList ++ q.2)

/-- The winner rule for the representative of a group: the later
observedAt wins, and on an exact tie the larger source row id wins. -/
def winner (a b : energyRow) : energyRow :=
  if nullTimeValue a.lastUpdated < nullTimeValue b.lastUpdated ∨
     (nullTimeValue b.lastUpdated = nullTimeValue a.lastUpdated ∧ a.stateID < b.stateID) then b
  else a

/-- The representative of a non-empty group, folding the winner rule over
the readings in arrival order. -/
def listRep (r : energyRow) (rs : List energyRow) : energyRow := rs.foldl winner r

/-- The averager state describing an open group over entity e and minute
bucket b with the given running sum, count and representative. -/
def groupState (e : String) (b : Int) (sum : ℚ) (count : Nat) (rep : energyRow) :
    minuteAverager :=
  { active := true, entityID := e, minute := b, sum := sum, count := count,
    maxTime := nullTimeValue rep.lastUpdated, maxTimeValid := true,
    stateID := rep.stateID, meta := rep.meta }

/-- The batch-dispatch threshold of the writer. -/
def energyBatchSize : Nat := 500

/-- The mutable state threaded through transferEnergyData: the in-memory
watermark map, the writer's pending row buffer with its counter, the log
of executed multi-row upserts (each entry one ExecContext call), and the
averager. -/
structure PipelineState where
  watermarks : String → Option Int
  args : List energyRow
  rowCount : Nat
  writes : List (List energyRow)
  averager : minuteAverager

/-- The driver state at the start of a run, for a given loaded watermark
map. -/
def initState (wm : String → Option Int) : PipelineState :=
  { watermarks := wm, args := [], rowCount := 0, writes := [],
    averager := newMinuteAverager }

/-- Point update of the watermark map. -/
def updateWM (f : String → Option Int) (e : String) (t : Int) : String → Option Int :=
  fun e' => if e' = e then some t else f e'

/-- flushBatch: a no-op on an empty buffer; otherwise execute the pending
rows as one upsert and clear the buffer. -/
def flushBatch (s : PipelineState) : PipelineState :=
  if s.rowCount = 0 then s
  else { s with writes := s.writes ++ [s.args], args := [], rowCount := 0 }

/-- appendRow: buffer the row, advance the entity's watermark when the
row carries a valid timestamp strictly beyond the current entry (or the
entity has no entry), bump the counter, and dispatch a batch once the
counter reaches the threshold. -/
def appendRow (s : PipelineState) (row : energyRow) : PipelineState :=
  let s1 := { s with args := s.args ++ [row] }
  let s2 :=
    match row.lastUpdated with
    | none => s1
    | some t =>
      match s1.watermarks row.entityID with
      | none => { s1 with watermarks := updateWM s1.watermarks row.entityID t }
      | some current =>
        if current < t then { s1 with watermarks := updateWM s1.watermarks row.entityID t }
        else s1
  let s3 := { s2 with rowCount := s2.rowCount + 1 }
  if energyBatchSize ≤ s3.rowCount then flushBatch s3 else s3

/-- Appending a list of rows one by one. -/
def appendAll (s : PipelineState) (rows : List energyRow) : PipelineState :=
  rows.foldl appendRow s

/-- One scanned source row as the sqlite query returns it. -/
structure SourceRow where
  stateID : Int
  entityID : String
  state : String
  lastUpdatedVal : Option GoFloat
  attributesJSON : String

/-- The watermark filter of the scan loop: a row is skipped exactly when
it carries a valid timestamp, the entity has a watermark entry, and the
timestamp is not strictly after that entry. -/
def skipsRow (wm : String → Option Int) (entityID : String) (lastUpdated : Option Int) :
    Bool :=
  match lastUpdated with
  | some t =>
    match wm entityID with
    | some w => decide (t ≤ w)
    | none => false
  | none => false

/-- The row the loop builds from one scanned source row. -/
def builtRow (env : Env) (src : SourceRow) (meta : energyMetadata)
    (lastUpdated : Option Int) : energyRow :=
  { stateID := src.stateID, entityID := src.entityID, state := src.state,
    numericState := parseNumericState env.parseFloat src.state,
    meta := meta, lastUpdated := lastUpdated }

/-- Routing an aggregation-eligible row: hand it to Add and append
whatever Add emitted on a boundary crossing. -/
def routeAgg (s : PipelineState) (row : energyRow) : PipelineState :=
  let p := s.averager.Add row
  let s1 := { s with averager := p.1 }
  match p.2 with
  | some r => appendRow s1 r
  | none => s1

/-- Flushing the averager into the writer: append the emitted aggregate,
if any. -/
def flushAvgStep (s : PipelineState) : PipelineState :=
  let p := s.averager.Flush
  let s1 := { s with averager := p.1 }
  match p.2 with
  | some r => appendRow s1 r
  | none => s1

/-- Routing a non-aggregated row: flush any open group first, then append
the raw row. -/
def routeRaw (s : PipelineState) (row : energyRow) : PipelineState :=
  appendRow (flushAvgStep s) row

/-- The body of the scan loop of transferEnergyData for one source row:
convert the timestamp (a conversion error aborts the run), skip the row
when its valid timestamp is not strictly after the entity's watermark,
extract metadata (a parse error aborts the run), then route the built row
to the averager when it is aggregation-eligible and otherwise flush any
open group and append the raw row. -/
def processRow (env : Env) (s : PipelineState) (src : SourceRow) :
    Except String PipelineState :=
  match floatToNullTime src.lastUpdatedVal with
  | Except.error e => Except.error e
  | Except.ok lastUpdated =>
    if skipsRow s.watermarks src.entityID lastUpdated then Except.ok s
    else
      match extractEnergyMetadata env.unmarshal src.attributesJSON with
      | Except.error e => Except.error e
      | Except.ok meta =>
        let row := builtRow env src meta lastUpdated
        if shouldAggregateRow row = true then Except.ok (routeAgg s row)
        else Except.ok (routeRaw s row)

/-- The scan loop over the whole ordered source cursor. -/
def processAll (env : Env) : PipelineState → List SourceRow → Except String PipelineState
  | s, [] => Except.ok s
  | s, src :: rest =>
    match processRow env s src with
    | Except.error e => Except.error e
    | Except.ok s' => processAll env s' rest

/-- The end of a run: flush the averager (appending any trailing
aggregate) and then flush the writer's partial batch. -/
def finishRun (s : PipelineState) : PipelineState :=
  flushBatch (flushAvgStep s)

/-- A whole pipeline run from a loaded watermark map over an ordered list
of source rows. -/
def runPipeline (env : Env) (wm : String → Option Int) (rows : List SourceRow) :
    Except String PipelineState :=
  match processAll env (initState wm) rows with
  | Except.error e => Except.error e
  | Except.ok s => Except.ok (finishRun s)

/-- Every row the run has handed to the writer so far, executed batches
first, pending buffer last. -/
def emittedRows (s : PipelineState) : List energyRow := s.writes.flatten ++ s.args

/-- One row's contribution to the per-entity maximum of valid
last-updated values (SQL MAX ignores nulls). -/
def wmFoldStep (e : String) (acc : Option Int) (row : energyRow) : Option Int :=
  if row.entityID = e then
    match row.lastUpdated, acc with
    | some t, some w => some (max w t)
    | some t, none => some t
    | none, _ => acc
  else acc

/-- loadEnergyEntityWatermarks against a sink holding the given rows: the
maximum valid last-updated per entity (entities whose rows all carry a
null timestamp get no entry, as SQL MAX ignores nulls and the loader
skips null maxima). -/
def loadEnergyEntityWatermarks (sink : List energyRow) (e : String) : Option Int :=
  sink.foldl (wmFoldStep e) none

/-- Pointwise domination of watermark maps: every entry of the first map
is matched in the second by an entry at least as late. -/
def wmLE (f g : String → Option Int) : Prop :=
  ∀ e w, f e = some w → ∃ w', g e = some w' ∧ w ≤ w'

/-- A timestamp t of entity e is covered by a list of rows when some row
of that entity carries a valid timestamp at least t. -/
def covered (rows : List energyRow) (e : String) (t : Int) : Prop :=
  ∃ r ∈ rows, r.entityID = e ∧ ∃ u, r.lastUpdated = some u ∧ t ≤ u

/-- A timestamp of an entity is accounted for by the run when it is
covered by the sink rows plus everything handed to the writer, or still
pending inside the open aggregation group of that entity. -/
def coveredOrPending (sink0 : List energyRow) (s : PipelineState) (e : String)
    (t : Int) : Prop :=
  covered (sink0 ++ emittedRows s) e t ∨
  (s.averager.active = true ∧ s.averager.entityID = e ∧
   s.averager.maxTimeValid = true ∧ t ≤ s.averager.maxTime)

/-- The run invariant for idempotence: every watermark entry is covered
by sink plus handled rows, the open group is well-formed, and the writer
counter matches its buffer. -/
def Inv0 (sink0 : List energyRow) (s : PipelineState) : Prop :=
  (∀ e w, s.watermarks e = some w → covered (sink0 ++ emittedRows s) e w) ∧
  (s.averager.active = true → (s.averager.count ≠ 0 ∧ s.averager.maxTimeValid = true)) ∧
  s.rowCount = s.args.length

/-- The empty watermark map (an empty sink). -/
def wmEmpty : String → Option Int := fun _ => none

/-- Every entry of the watermark map lies strictly below the bound. -/
def wmBelow (f : String → Option Int) (bound : Int) : Prop :=
  ∀ e w, f e = some w → w < bound

/-- Decidable equality of fallible results, so concrete runs can be
checked by evaluation. -/
def exceptDecEq {ε α : Type} [DecidableEq ε] [DecidableEq α] :
    DecidableEq (Except ε α)
  | Except.error e1, Except.error e2 =>
    if h : e1 = e2 then isTrue (by rw [h]) else isFalse (by simp [h])
  | Except.error _, Except.ok _ => isFalse (by simp)
  | Except.ok _, Except.error _ => isFalse (by simp)
  | Except.ok a1, Except.ok a2 =>
    if h : a1 = a2 then isTrue (by rw [h]) else isFalse (by simp [h])

instance {ε α : Type} [DecidableEq ε] [DecidableEq α] : DecidableEq (Except ε α) :=
  exceptDecEq

/-! ### Concrete fixtures used by witnesses and counterexamples -/

/-- A reading of entity a with value 2 observed 5 seconds into the epoch
minute. -/
def rowW1 : energyRow :=
  { stateID := 1, entityID := "a", state := "2", numericState := some 2,
    meta := energyMetadata.empty, lastUpdated := some (5 * nsPerSecond) }

/-- A reading of entity a with value 4 observed 40 seconds into the epoch
minute. -/
def rowW2 : energyRow :=
  { stateID := 2, entityID := "a", state := "4", numericState := some 4,
    meta := energyMetadata.empty, lastUpdated := some (40 * nsPerSecond) }

/-- A reading of entity a sharing rowW1's observedAt but carrying a
larger source row id and its own metadata. -/
def rowW1B : energyRow :=
  { stateID := 7, entityID := "a", state := "9", numericState := some 9,
    meta := { Unit := some "V", DeviceClass := none, StateClass := none,
              FriendlyName := none },
    lastUpdated := some (5 * nsPerSecond) }

/-- A reading of entity b, used to cross an entity boundary. -/
def rowB : energyRow :=
  { stateID := 3, entityID := "b", state := "1", numericState := some 1,
    meta := energyMetadata.empty, lastUpdated := some 0 }

/-- A float parser recognising just the numeric strings the fixtures use,
standing for strconv.ParseFloat (which rejects "unavailable"). -/
def parseFloatW : String → Option ℚ :=
  fun s => if s = "1" then some 1 else if s = "2" then some 2 else none

/-- The fixture environment: numeric strings 1 and 2 parse, everything
else does not; payloads never unmarshal (the fixtures use empty
payloads only). -/
def envW : Env := { parseFloat := parseFloatW, unmarshal := fun _ => none }

/-- An aggregation-eligible source reading at 5 s with value 1. -/
def srcA : SourceRow :=
  { stateID := 1, entityID := "e_voltage", state := "1",
    lastUpdatedVal := some (GoFloat.val 5), attributesJSON := "" }

/-- A non-aggregated source reading (unparsable state) at 20 s. -/
def srcX : SourceRow :=
  { stateID := 2, entityID := "e_voltage", state := "unavailable",
    lastUpdatedVal := some (GoFloat.val 20), attributesJSON := "" }

/-- An aggregation-eligible source reading at 30 s with value 2. -/
def srcC : SourceRow :=
  { stateID := 3, entityID := "e_voltage", state := "2",
    lastUpdatedVal := some (GoFloat.val 30), attributesJSON := "" }

/-- An aggregation-eligible source reading at 0 s with value 1. -/
def srcA2 : SourceRow :=
  { stateID := 1, entityID := "e_voltage", state := "1",
    lastUpdatedVal := some (GoFloat.val 0), attributesJSON := "" }

/-- A non-aggregated source reading at 30 s. -/
def srcX2 : SourceRow :=
  { stateID := 2, entityID := "e_voltage", state := "unavailable",
    lastUpdatedVal := some (GoFloat.val 30), attributesJSON := "" }

/-- An aggregation-eligible source reading whose observedAt equals the
interleaved reading's 30 s. -/
def srcC2 : SourceRow :=
  { stateID := 3, entityID := "e_voltage", state := "2",
    lastUpdatedVal := some (GoFloat.val 30), attributesJSON := "" }

/-- A plain source reading whose state string does not parse as a float
and whose timestamp is absent. -/
def srcU : SourceRow :=
  { stateID := 9, entityID := "plain_sensor", state := "unavailable",
    lastUpdatedVal := none, attributesJSON := "" }

/-- A watermark map holding a single entry for entity e at time zero. -/
def wmW : String → Option Int := updateWM wmEmpty "e" 0

/-- The state a run over the single reading srcU reaches from wmW: the
raw row is written in one batch and the map is untouched. -/
def sW : PipelineState :=
  { watermarks := wmW, args := [], rowCount := 0,
    writes := [[builtRow envNone srcU energyMetadata.empty none]],
    averager := newMinuteAverager }

/-- A plain source reading with a valid timestamp at the epoch and an
empty state string. -/
def srcV : SourceRow :=
  { stateID := 4, entityID := "plain_meter", state := "",
    lastUpdatedVal := some (GoFloat.val 0), attributesJSON := "" }

/-- A source reading with an absent timestamp, for the idempotence
counterexample. -/
def srcN : SourceRow :=
  { stateID := 5, entityID := "plain_meter", state := "x",
    lastUpdatedVal := none, attributesJSON := "" }

/-- The row the loop builds from srcV. -/
def rowV : energyRow := builtRow envNone srcV energyMetadata.empty (some 0)

/-- The state the first run over srcV from an empty sink finishes in. -/
def s1V : PipelineState :=
  finishRun (appendRow (initState (loadEnergyEntityWatermarks [])) rowV)

/-- The row the loop builds from srcN (absent timestamp). -/
def rowN : energyRow := builtRow envNone srcN energyMetadata.empty none

/-- The state a run over srcN reaches from the empty sink: rowN written in
one batch, watermark map untouched. -/
def sN1 : PipelineState :=
  { watermarks := loadEnergyEntityWatermarks [], args := [], rowCount := 0,
    writes := [[rowN]], averager := newMinuteAverager }

/-- The state the second run over srcN reaches from the once-populated
sink: rowN is written again, because a NULL last_updated row contributes
nothing to MAX(last_updated) and is never skipped. -/
def sN2 : PipelineState :=
  { watermarks := loadEnergyEntityWatermarks [rowN], args := [], rowCount := 0,
    writes := [[rowN]], averager := newMinuteAverager }

/-- The rows a finished run handed to the writer (empty on a failed
run). -/
def runEmitted (r : Except String PipelineState) : List energyRow :=
  match r with
  | Except.ok s => emittedRows s
  | Except.error _ => []

/-! ### Characterisation of the averager transitions -/

/-- Flushing an idle averager does nothing and emits nothing. -/
lemma Flush_inactive (m : minuteAverager) (h : m.active = false) :
    m.Flush = (m, none) := by
  simp [minuteAverager.Flush, h]

/-- Flushing a well-formed accumulating group resets the state and emits
the aggregate row. -/
lemma Flush_emits (m : minuteAverager) (h : m.active = true) (hc : m.count ≠ 0)
    (hv : m.maxTimeValid = true) :
    m.Flush = (minuteAverager.resetState, some m.aggRow) := by
  simp [minuteAverager.Flush, h, hc, hv]

/-- Adding a reading to an idle averager opens a fresh group holding just
that reading and emits nothing. -/
lemma Add_inactive (m : minuteAverager) (row : energyRow) (h : m.active = false) :
    m.Add row =
      (groupState row.entityID (truncMinute (nullTimeValue row.lastUpdated))
        (rowVal row) 1 row, none) := by
  simp [minuteAverager.Add, h, groupState]

/-- Adding a reading of the open group's own entity and minute bucket
folds it into the group and emits nothing; the representative fields are
replaced exactly when the reading wins the tie-break rule. -/
lemma Add_active_same (m : minuteAverager) (row : energyRow) (h : m.active = true)
    (he : row.entityID = m.entityID)
    (hm : truncMinute (nullTimeValue row.lastUpdated) = m.minute) :
    m.Add row =
      (if m.maxTimeValid = false ∨ m.maxTime < nullTimeValue row.lastUpdated ∨
          (nullTimeValue row.lastUpdated = m.maxTime ∧ m.stateID < row.stateID) then
        { m with sum := m.sum + rowVal row, count := m.count + 1,
                 maxTime := nullTimeValue row.lastUpdated, maxTimeValid := true,
                 stateID := row.stateID, meta := row.meta }
      else
        { m with sum := m.sum + rowVal row, count := m.count + 1 }, none) := by
  simp [minuteAverager.Add, h, he, hm]

/-- Adding a reading that crosses the boundary of a well-formed open
group flushes the group, emitting its aggregate, and opens a fresh group
holding just the incoming reading. -/
lemma Add_active_boundary (m : minuteAverager) (row : energyRow) (h : m.active = true)
    (hc : m.count ≠ 0) (hv : m.maxTimeValid = true)
    (hb : row.entityID ≠ m.entityID ∨ truncMinute (nullTimeValue row.lastUpdated) ≠ m.minute) :
    m.Add row =
      (groupState row.entityID (truncMinute (nullTimeValue row.lastUpdated))
        (rowVal row) 1 row, some m.aggRow) := by
  have hflush := Flush_emits m h hc hv
  simp only [minuteAverager.Add, h, hb, true_and, if_pos, hflush]
  simp [minuteAverager.resetState, groupState]

/-- Adding a reading that crosses the boundary of an open group that a
flush would discard (zero count or no representative) still opens a fresh
group for the incoming reading, emitting nothing. -/
lemma Add_active_boundary_discard (m : minuteAverager) (row : energyRow)
    (h : m.active = true) (hd : m.count = 0 ∨ m.maxTimeValid = false)
    (hb : row.entityID ≠ m.entityID ∨ truncMinute (nullTimeValue row.lastUpdated) ≠ m.minute) :
    m.Add row =
      (groupState row.entityID (truncMinute (nullTimeValue row.lastUpdated))
        (rowVal row) 1 row, none) := by
  have hflush : m.Flush = (minuteAverager.resetState, none) := by
    simp [minuteAverager.Flush, h]
    rcases hd with hd | hd
    · exact fun hne => absurd hd hne.elim
    · intro _; exact hd
  simp only [minuteAverager.Add, h, hb, true_and, if_pos, hflush]
  simp [minuteAverager.resetState, groupState]

/-- The winner of two readings is one of them. -/
lemma winner_eq_or (a b : energyRow) : winner a b = a ∨ winner a b = b := by
  unfold winner; split
  · exact Or.inr rfl
  · exact Or.inl rfl

/-- Folding the winner rule over a cons. -/
lemma listRep_cons (r x : energyRow) (xs : List energyRow) :
    listRep r (x :: xs) = listRep (winner r x) xs := rfl

/-- The representative of a group is a member of the group. -/
lemma listRep_mem : ∀ (rs : List energyRow) (r : energyRow), listRep r rs ∈ r :: rs := by
  intro rs
  induction rs with
  | nil => intro r; simp [listRep]
  | cons x xs ih =>
    intro r
    rw [listRep_cons]
    rcases List.mem_cons.mp (ih (winner r x)) with h | h
    · rw [h]
      rcases winner_eq_or r x with hw | hw <;> rw [hw]
      · exact List.mem_cons_self _ _
      · exact List.mem_cons_of_mem _ (List.mem_cons_self _ _)
    · exact List.mem_cons_of_mem _ (List.mem_cons_of_mem _ h)

/-- Feeding a run of readings that all belong to an open group's entity
and minute bucket accumulates their sum and count, tracks the
representative through the winner rule, and emits nothing. -/
lemma addAll_groupState (e : String) (b : Int) :
    ∀ (rows : List energyRow) (sum : ℚ) (count : Nat) (rep : energyRow),
      (∀ x ∈ rows, x.entityID = e ∧ truncMinute (nullTimeValue x.lastUpdated) = b) →
      addAll (groupState e b sum count rep) rows =
        (groupState e b (sum + (rows.map rowVal).sum) (count + rows.length)
          (listRep rep rows), []) := by
  intro rows
  induction rows with
  | nil => intro sum count rep _; simp [addAll, listRep]
  | cons row rows ih =>
    intro sum count rep h
    obtain ⟨he, hm⟩ := h row (List.mem_cons_self _ _)
    have hrest : ∀ x ∈ rows, x.entityID = e ∧ truncMinute (nullTimeValue x.lastUpdated) = b :=
      fun x hx => h x (List.mem_cons_of_mem _ hx)
    have hstep := Add_active_same (groupState e b sum count rep) row rfl
      (by simpa [groupState] using he) (by simpa [groupState] using hm)
    simp only [groupState] at hstep
    by_cases hcond : nullTimeValue rep.lastUpdated < nullTimeValue row.lastUpdated ∨
        (nullTimeValue row.lastUpdated = nullTimeValue rep.lastUpdated ∧ rep.stateID < row.stateID)
    · rw [if_pos (by simp [hcond])] at hstep
      have hwin : winner rep row = row := by unfold winner; exact if_pos hcond
      have ih' := ih (sum + rowVal row) (count + 1) row hrest
      simp only [groupState] at ih' ⊢
      simp only [addAll, hstep, Option.toList_none, List.nil_append, ih']
      rw [listRep_cons, hwin]
      simp only [List.map_cons, List.sum_cons, List.length_cons, Prod.mk.injEq,
        minuteAverager.mk.injEq, and_true, true_and]
      exact ⟨by ring, by omega⟩
    · rw [if_neg (by simp [hcond])] at hstep
      have hwin : winner rep row = rep := by unfold winner; exact if_neg hcond
      have ih' := ih (sum + rowVal row) (count + 1) rep hrest
      simp only [groupState] at ih' ⊢
      simp only [addAll, hstep, Option.toList_none, List.nil_append, ih']
      rw [listRep_cons, hwin]
      simp only [List.map_cons, List.sum_cons, List.length_cons, Prod.mk.injEq,
        minuteAverager.mk.injEq, and_true, true_and]
      exact ⟨by ring, by omega⟩

/-- C1: for a maximal run of aggregation-eligible readings sharing one
entity and one minute-truncated timestamp fed to Add, the adds themselves
emit nothing and the flush that closes the group emits exactly one row:
its numeric value is the arithmetic mean of the readings' values, its
value string is that average rendered by the float formatter, and its
identity, metadata and timestamp are the representative's, chosen by the
latest-observedAt rule with the larger source row id breaking ties. -/
theorem minute_average_exact (e : String) (b : Int) (r : energyRow) (rs : List energyRow)
    (h : ∀ x ∈ r :: rs, x.entityID = e ∧ truncMinute (nullTimeValue x.lastUpdated) = b ∧
         x.lastUpdated.isSome = true ∧ x.numericState.isSome = true) :
    (addAll newMinuteAverager (r :: rs)).2 = [] ∧
    (addAll newMinuteAverager (r :: rs)).1.Flush =
      (minuteAverager.resetState, some
        { stateID := (listRep r rs).stateID,
          entityID := e,
          state := formatFloat (((r :: rs).map rowVal).sum / ((r :: rs).length : ℚ)),
          numericState := some (((r :: rs).map rowVal).sum / ((r :: rs).length : ℚ)),
          meta := (listRep r rs).meta,
          lastUpdated := (listRep r rs).lastUpdated }) := by
  obtain ⟨he, hm, hs, _⟩ := h r (List.mem_cons_self _ _)
  have hrest : ∀ x ∈ rs, x.entityID = e ∧ truncMinute (nullTimeValue x.lastUpdated) = b :=
    fun x hx => ⟨(h x (List.mem_cons_of_mem _ hx)).1, (h x (List.mem_cons_of_mem _ hx)).2.1⟩
  have hfirst := Add_inactive newMinuteAverager r rfl
  rw [he, hm] at hfirst
  have hall : addAll newMinuteAverager (r :: rs) =
      (groupState e b (rowVal r + (rs.map rowVal).sum) (1 + rs.length) (listRep r rs), []) := by
    simp only [addAll, hfirst, Option.toList_none, List.nil_append,
      addAll_groupState e b rs (rowVal r) 1 r hrest]
  rw [hall]
  refine ⟨rfl, ?_⟩
  rw [Flush_emits _ rfl (by simp [groupState]) rfl]
  have hrep := listRep_mem rs r
  obtain ⟨-, -, hrs2, -⟩ := h _ hrep
  obtain ⟨t, ht⟩ := Option.isSome_iff_exists.mp hrs2
  have hden : ((1 + rs.length : ℕ) : ℚ) = ((r :: rs).length : ℚ) := by
    rw [List.length_cons, Nat.add_comm]
  simp only [minuteAverager.aggRow, groupState, List.map_cons, List.sum_cons, ht,
    nullTimeValue, Option.getD_some, hden]

/-- C1 witness: two concrete readings of entity a inside the epoch
minute, values 2 and 4; the theorem applies and yields the average 3 with
the second reading as representative. -/
theorem minute_average_exact_witness :
    (∀ x ∈ [rowW1, rowW2], x.entityID = "a" ∧ truncMinute (nullTimeValue x.lastUpdated) = 0 ∧
      x.lastUpdated.isSome = true ∧ x.numericState.isSome = true) ∧
    (addAll newMinuteAverager [rowW1, rowW2]).2 = [] ∧
    (addAll newMinuteAverager [rowW1, rowW2]).1.Flush =
      (minuteAverager.resetState, some
        { stateID := (listRep rowW1 [rowW2]).stateID,
          entityID := "a",
          state := formatFloat (([rowW1, rowW2].map rowVal).sum / (([rowW1, rowW2].length : ℚ))),
          numericState := some (([rowW1, rowW2].map rowVal).sum / (([rowW1, rowW2].length : ℚ))),
          meta := (listRep rowW1 [rowW2]).meta,
          lastUpdated := (listRep rowW1 [rowW2]).lastUpdated }) :=
  ⟨by decide, minute_average_exact "a" 0 rowW1 [rowW2] (by decide)⟩

/-- C3: inside an open group with an established representative, adding a
reading of the same entity and minute replaces the representative exactly
when the reading's observedAt is strictly later, or equal with a strictly
larger source row id; every other reading leaves the representative
untouched. -/
theorem representative_tie_break (m : minuteAverager) (row : energyRow)
    (ha : m.active = true) (hv : m.maxTimeValid = true)
    (he : row.entityID = m.entityID)
    (hm : truncMinute (nullTimeValue row.lastUpdated) = m.minute) :
    ((m.maxTime < nullTimeValue row.lastUpdated ∨
        (nullTimeValue row.lastUpdated = m.maxTime ∧ m.stateID < row.stateID)) →
      ((m.Add row).1.maxTime = nullTimeValue row.lastUpdated ∧
       (m.Add row).1.stateID = row.stateID ∧
       (m.Add row).1.meta = row.meta)) ∧
    (¬ (m.maxTime < nullTimeValue row.lastUpdated ∨
        (nullTimeValue row.lastUpdated = m.maxTime ∧ m.stateID < row.stateID)) →
      ((m.Add row).1.maxTime = m.maxTime ∧
       (m.Add row).1.stateID = m.stateID ∧
       (m.Add row).1.meta = m.meta)) := by
  have hstep := Add_active_same m row ha he hm
  constructor
  · intro hc
    rw [if_pos (Or.inr hc)] at hstep
    rw [hstep]
    exact ⟨rfl, rfl, rfl⟩
  · intro hc
    rw [if_neg (by simp [hv, hc])] at hstep
    rw [hstep]
    exact ⟨rfl, rfl, rfl⟩

/-- C3 witness: the second reading carries the same observedAt as the
current representative but a larger source row id, so it takes over the
representative fields. -/
theorem representative_tie_break_witness :
    ((groupState "a" 0 2 1 rowW1).maxTime < nullTimeValue rowW1B.lastUpdated ∨
      (nullTimeValue rowW1B.lastUpdated = (groupState "a" 0 2 1 rowW1).maxTime ∧
        (groupState "a" 0 2 1 rowW1).stateID < rowW1B.stateID)) ∧
    (((groupState "a" 0 2 1 rowW1).Add rowW1B).1.maxTime = nullTimeValue rowW1B.lastUpdated ∧
     ((groupState "a" 0 2 1 rowW1).Add rowW1B).1.stateID = rowW1B.stateID ∧
     ((groupState "a" 0 2 1 rowW1).Add rowW1B).1.meta = rowW1B.meta) :=
  ⟨by decide,
    (representative_tie_break (groupState "a" 0 2 1 rowW1) rowW1B rfl rfl (by decide)
      (by decide)).1 (by decide)⟩

/-! ### Writer and driver step lemmas -/

/-- Dispatching a batch moves the buffer into the write log without
changing the multiset of handled rows. -/
lemma emittedRows_flushBatch (s : PipelineState) :
    emittedRows (flushBatch s) = emittedRows s := by
  unfold flushBatch emittedRows
  split
  · rfl
  · simp

/-- The unfolded form of the previous lemma, convenient for simp. -/
lemma flushBatch_flatten_args (s : PipelineState) :
    (flushBatch s).writes.flatten ++ (flushBatch s).args = s.writes.flatten ++ s.args := by
  unfold flushBatch; split <;> simp

/-- flushBatch does not touch the watermark map. -/
lemma watermarks_flushBatch (s : PipelineState) :
    (flushBatch s).watermarks = s.watermarks := by
  unfold flushBatch; split <;> rfl

/-- flushBatch does not touch the averager. -/
lemma averager_flushBatch (s : PipelineState) :
    (flushBatch s).averager = s.averager := by
  unfold flushBatch; split <;> rfl

/-- Appending a row adds exactly that row at the end of the handled
rows. -/
lemma emittedRows_appendRow (s : PipelineState) (row : energyRow) :
    emittedRows (appendRow s row) = emittedRows s ++ [row] := by
  simp only [appendRow]
  repeat' split
  all_goals simp [flushBatch_flatten_args, emittedRows]

/-- appendRow leaves the averager untouched. -/
lemma averager_appendRow (s : PipelineState) (row : energyRow) :
    (appendRow s row).averager = s.averager := by
  simp only [appendRow]
  repeat' split
  all_goals simp [averager_flushBatch]

/-- The buffer counter stays synchronised with the buffer length. -/
lemma cnt_flushBatch (s : PipelineState) (h : s.rowCount = s.args.length) :
    (flushBatch s).rowCount = (flushBatch s).args.length := by
  unfold flushBatch; split <;> simp [h]

/-- appendRow keeps the counter synchronised with the buffer length. -/
lemma cnt_appendRow (s : PipelineState) (row : energyRow)
    (h : s.rowCount = s.args.length) :
    (appendRow s row).rowCount = (appendRow s row).args.length := by
  simp only [appendRow]
  repeat' split
  all_goals first
    | (apply cnt_flushBatch; simp [h])
    | simp [h]

/-- What appendRow does to the watermark map, case by case. -/
lemma watermarks_appendRow (s : PipelineState) (row : energyRow) :
    (appendRow s row).watermarks =
      match row.lastUpdated with
      | none => s.watermarks
      | some t =>
        match s.watermarks row.entityID with
        | none => updateWM s.watermarks row.entityID t
        | some w => if w < t then updateWM s.watermarks row.entityID t else s.watermarks := by
  cases hlu : row.lastUpdated with
  | none =>
    simp only [appendRow, hlu]
    split
    · rw [watermarks_flushBatch]
    · rfl
  | some t =>
    simp only [appendRow, hlu]
    cases hw : s.watermarks row.entityID with
    | none =>
      simp only [hw]
      split
      · rw [watermarks_flushBatch]
      · rfl
    | some w =>
      simp only [hw]
      by_cases hlt : w < t
      · simp only [if_pos hlt]
        split
        · rw [watermarks_flushBatch]
        · rfl
      · simp only [if_neg hlt]
        split
        · rw [watermarks_flushBatch]
        · rfl

/-- The watermark map is pointwise reflexively dominated. -/
lemma wmLE_refl (f : String → Option Int) : wmLE f f :=
  fun _ w h => ⟨w, h, le_refl w⟩

/-- Pointwise domination composes. -/
lemma wmLE_trans (f g k : String → Option Int) (h1 : wmLE f g) (h2 : wmLE g k) :
    wmLE f k := by
  intro e w hw
  obtain ⟨w', hw', hle⟩ := h1 e w hw
  obtain ⟨w'', hw'', hle'⟩ := h2 e w' hw'
  exact ⟨w'', hw'', le_trans hle hle'⟩

/-- Raising an absent or dominated entry preserves pointwise
domination. -/
lemma wmLE_updateWM (f : String → Option Int) (e0 : String) (t : Int)
    (h : ∀ w, f e0 = some w → w ≤ t) : wmLE f (updateWM f e0 t) := by
  intro e w hwe
  by_cases he : e = e0
  · refine ⟨t, by simp [updateWM, he], ?_⟩
    exact h w (he ▸ hwe)
  · exact ⟨w, by simpa [updateWM, he] using hwe, le_refl w⟩

/-- appendRow only ever raises or creates watermark entries. -/
lemma wmLE_appendRow (s : PipelineState) (row : energyRow) :
    wmLE s.watermarks (appendRow s row).watermarks := by
  rw [watermarks_appendRow]
  cases hlu : row.lastUpdated with
  | none => exact wmLE_refl _
  | some t =>
    cases hw : s.watermarks row.entityID with
    | none =>
      show wmLE s.watermarks (updateWM s.watermarks row.entityID t)
      refine wmLE_updateWM _ _ _ ?_
      intro w hwe
      rw [hw] at hwe
      cases hwe
    | some w0 =>
      show wmLE s.watermarks
        (if w0 < t then updateWM s.watermarks row.entityID t else s.watermarks)
      by_cases hlt : w0 < t
      · rw [if_pos hlt]
        refine wmLE_updateWM _ _ _ ?_
        intro w hwe
        rw [hw] at hwe
        cases hwe
        exact le_of_lt hlt
      · rw [if_neg hlt]
        exact wmLE_refl _

/-- Updating the averager leaves the handled rows unchanged. -/
lemma emittedRows_setAvg (s : PipelineState) (m : minuteAverager) :
    emittedRows { s with averager := m } = emittedRows s := rfl

/-- routeAgg when Add emits nothing. -/
lemma routeAgg_none (s : PipelineState) (row : energyRow) (m' : minuteAverager)
    (h : s.averager.Add row = (m', none)) :
    routeAgg s row = { s with averager := m' } := by
  unfold routeAgg
  rw [h]

/-- routeAgg when Add emits a flushed aggregate. -/
lemma routeAgg_emit (s : PipelineState) (row : energyRow) (m' : minuteAverager)
    (rr : energyRow) (h : s.averager.Add row = (m', some rr)) :
    routeAgg s row = appendRow { s with averager := m' } rr := by
  unfold routeAgg
  rw [h]

/-- flushAvgStep when Flush emits nothing. -/
lemma flushAvgStep_none (s : PipelineState) (m' : minuteAverager)
    (h : s.averager.Flush = (m', none)) :
    flushAvgStep s = { s with averager := m' } := by
  unfold flushAvgStep
  rw [h]

/-- flushAvgStep when Flush emits an aggregate. -/
lemma flushAvgStep_emit (s : PipelineState) (m' : minuteAverager)
    (rr : energyRow) (h : s.averager.Flush = (m', some rr)) :
    flushAvgStep s = appendRow { s with averager := m' } rr := by
  unfold flushAvgStep
  rw [h]

/-- An entity with no watermark entry is never skipped. -/
lemma skipsRow_of_none (wm : String → Option Int) (e : String) (lt : Option Int)
    (h : wm e = none) : skipsRow wm e lt = false := by
  cases lt <;> simp [skipsRow, h]

/-- A timestamp strictly above every watermark entry is never skipped. -/
lemma skipsRow_false_of_below (wm : String → Option Int) (e : String) (t : Int)
    (h : ∀ w, wm e = some w → w < t) : skipsRow wm e (some t) = false := by
  cases hw : wm e with
  | none => simp [skipsRow, hw]
  | some w =>
    simp [skipsRow, hw]
    exact h w hw

/-- Point updates below the bound keep the map below the bound. -/
lemma wmBelow_updateWM (f : String → Option Int) (bound : Int) (e0 : String) (t : Int)
    (hf : wmBelow f bound) (ht : t < bound) : wmBelow (updateWM f e0 t) bound := by
  intro e w hw
  by_cases he : e = e0
  · simp [updateWM, he] at hw
    exact hw ▸ ht
  · exact hf e w (by simpa [updateWM, he] using hw)

/-- appendRow keeps the watermark map below a bound when the appended
row's timestamp is below it. -/
lemma wmBelow_appendRow (s : PipelineState) (row : energyRow) (bound : Int)
    (hf : wmBelow s.watermarks bound)
    (ht : ∀ t, row.lastUpdated = some t → t < bound) :
    wmBelow (appendRow s row).watermarks bound := by
  rw [watermarks_appendRow]
  cases hlu : row.lastUpdated with
  | none => exact hf
  | some t =>
    have htb := ht t hlu
    cases hw : s.watermarks row.entityID with
    | none =>
      show wmBelow (updateWM s.watermarks row.entityID t) bound
      exact wmBelow_updateWM _ _ _ _ hf htb
    | some w0 =>
      show wmBelow
        (if w0 < t then updateWM s.watermarks row.entityID t else s.watermarks) bound
      by_cases hlt : w0 < t
      · rw [if_pos hlt]; exact wmBelow_updateWM _ _ _ _ hf htb
      · rw [if_neg hlt]; exact hf

/-- The skip branch of the loop: a valid timestamp not strictly after the
entity's watermark leaves the whole state untouched. -/
lemma processRow_skip (env : Env) (s : PipelineState) (src : SourceRow) (t w : Int)
    (hconv : floatToNullTime src.lastUpdatedVal = Except.ok (some t))
    (hw : s.watermarks src.entityID = some w) (hle : t ≤ w) :
    processRow env s src = Except.ok s := by
  unfold processRow
  rw [hconv]
  simp [skipsRow, hw, hle]

/-- The non-skipped branches of the loop, as one equation. -/
lemma processRow_eq (env : Env) (s : PipelineState) (src : SourceRow)
    (lt : Option Int) (meta : energyMetadata)
    (hconv : floatToNullTime src.lastUpdatedVal = Except.ok lt)
    (hskip : skipsRow s.watermarks src.entityID lt = false)
    (hmeta : extractEnergyMetadata env.unmarshal src.attributesJSON = Except.ok meta) :
    processRow env s src =
      Except.ok (if shouldAggregateRow (builtRow env src meta lt) = true
        then routeAgg s (builtRow env src meta lt)
        else routeRaw s (builtRow env src meta lt)) := by
  unfold processRow
  rw [hconv]
  simp only [hskip, hmeta, Bool.false_eq_true, if_false]
  split <;> rfl

/-- C2 (amended): crossing a group boundary in Add (different entity or
different minute bucket) flushes the open group, emitting its aggregate,
before a fresh group is opened for the incoming reading; and in the
driver, a non-aggregated reading interleaved between two eligible
readings of the same entity and minute splits the aggregation into two
separately emitted aggregates, provided the trailing eligible reading's
observedAt is strictly after the earlier reading's and the interleaved
reading's timestamps, so the watermark advanced inside the run does not
skip it. -/
theorem boundary_flush_and_interleave
    (m : minuteAverager) (row : energyRow)
    (env : Env) (a x c : SourceRow) (ta tc : Int) (ltx : Option Int)
    (ma mx mc : energyMetadata)
    (hact : m.active = true) (hcnt : m.count ≠ 0) (hmv : m.maxTimeValid = true)
    (hb : row.entityID ≠ m.entityID ∨
          truncMinute (nullTimeValue row.lastUpdated) ≠ m.minute)
    (hta : floatToNullTime a.lastUpdatedVal = Except.ok (some ta))
    (hema : extractEnergyMetadata env.unmarshal a.attributesJSON = Except.ok ma)
    (haA : shouldAggregateRow (builtRow env a ma (some ta)) = true)
    (htx : floatToNullTime x.lastUpdatedVal = Except.ok ltx)
    (hemx : extractEnergyMetadata env.unmarshal x.attributesJSON = Except.ok mx)
    (hxA : shouldAggregateRow (builtRow env x mx ltx) = false)
    (htc : floatToNullTime c.lastUpdatedVal = Except.ok (some tc))
    (hemc : extractEnergyMetadata env.unmarshal c.attributesJSON = Except.ok mc)
    (hcA : shouldAggregateRow (builtRow env c mc (some tc)) = true)
    (_hsameE : c.entityID = a.entityID) (_hsameB : truncMinute tc = truncMinute ta)
    (htac : ta < tc) (hltx : ∀ t', ltx = some t' → t' < tc) :
    m.Add row =
      (groupState row.entityID (truncMinute (nullTimeValue row.lastUpdated))
        (rowVal row) 1 row, some m.aggRow) ∧
    ∃ sFin, runPipeline env wmEmpty [a, x, c] = Except.ok sFin ∧
      emittedRows sFin =
        [(groupState a.entityID (truncMinute ta) (rowVal (builtRow env a ma (some ta))) 1
            (builtRow env a ma (some ta))).aggRow,
         builtRow env x mx ltx,
         (groupState c.entityID (truncMinute tc) (rowVal (builtRow env c mc (some tc))) 1
            (builtRow env c mc (some tc))).aggRow] := by
  refine ⟨Add_active_boundary m row hact hcnt hmv hb, ?_⟩
  -- abbreviations
  set rowA := builtRow env a ma (some ta) with hrowA
  set rowX := builtRow env x mx ltx with hrowX
  set rowC := builtRow env c mc (some tc) with hrowC
  set GA := groupState a.entityID (truncMinute ta) (rowVal rowA) 1 rowA with hGA
  set GC := groupState c.entityID (truncMinute tc) (rowVal rowC) 1 rowC with hGC
  set s0 := initState wmEmpty with hs0
  -- step 1: the first eligible reading opens a group
  have hAddA : s0.averager.Add rowA = (GA, none) := by
    have := Add_inactive s0.averager rowA rfl
    simpa [hrowA, builtRow, nullTimeValue] using this
  have hstep1 : processRow env s0 a = Except.ok { s0 with averager := GA } := by
    rw [processRow_eq env s0 a (some ta) ma hta (skipsRow_of_none _ _ _ rfl) hema]
    rw [← hrowA, if_pos haA, routeAgg_none s0 rowA GA hAddA]
  -- step 2: the interleaved raw reading flushes the group and is appended
  set s1 := { s0 with averager := GA } with hs1
  have hFlushA : s1.averager.Flush = (minuteAverager.resetState, some GA.aggRow) :=
    Flush_emits GA rfl (by simp [hGA, groupState]) rfl
  set s1r := { s1 with averager := minuteAverager.resetState } with hs1r
  have hstep2 : processRow env s1 x =
      Except.ok (appendRow (appendRow s1r GA.aggRow) rowX) := by
    rw [processRow_eq env s1 x ltx mx htx (skipsRow_of_none _ _ _ rfl) hemx]
    rw [← hrowX, hxA]
    simp only [Bool.false_eq_true, if_false]
    unfold routeRaw
    rw [flushAvgStep_emit s1 _ _ hFlushA]
  set s2 := appendRow (appendRow s1r GA.aggRow) rowX with hs2
  -- the watermark stays strictly below tc
  have hbelow0 : wmBelow s1r.watermarks tc := by
    intro e w hw
    simp [hs1r, hs1, hs0, initState, wmEmpty] at hw
  have haggA_lu : GA.aggRow.lastUpdated = some ta := by
    simp [hGA, minuteAverager.aggRow, groupState, hrowA, builtRow, nullTimeValue]
  have hbelowA : wmBelow (appendRow s1r GA.aggRow).watermarks tc := by
    refine wmBelow_appendRow _ _ _ hbelow0 ?_
    intro t ht
    rw [haggA_lu] at ht
    cases ht
    exact htac
  have hbelow2 : wmBelow s2.watermarks tc := by
    rw [hs2]
    refine wmBelow_appendRow _ _ _ hbelowA ?_
    intro t ht
    exact hltx t (by simpa [hrowX, builtRow] using ht)
  -- step 3: the trailing eligible reading is not skipped and opens a new group
  have havg2 : s2.averager = minuteAverager.resetState := by
    rw [hs2, averager_appendRow, averager_appendRow]
  have hAddC : s2.averager.Add rowC = (GC, none) := by
    rw [havg2]
    have := Add_inactive minuteAverager.resetState rowC rfl
    simpa [hrowC, builtRow, nullTimeValue] using this
  have hstep3 : processRow env s2 c = Except.ok { s2 with averager := GC } := by
    rw [processRow_eq env s2 c (some tc) mc htc
      (skipsRow_false_of_below _ _ _ (fun w hw => hbelow2 _ w hw)) hemc]
    rw [← hrowC, if_pos hcA, routeAgg_none s2 rowC GC hAddC]
  set s3 := { s2 with averager := GC } with hs3
  -- the end of the run flushes the trailing group and the batch
  have hFlushC : s3.averager.Flush = (minuteAverager.resetState, some GC.aggRow) :=
    Flush_emits GC rfl (by simp [hGC, groupState]) rfl
  have hfin : finishRun s3 =
      flushBatch (appendRow { s3 with averager := minuteAverager.resetState } GC.aggRow) := by
    unfold finishRun
    rw [flushAvgStep_emit s3 _ _ hFlushC]
  refine ⟨finishRun s3, ?_, ?_⟩
  · unfold runPipeline
    have hall : processAll env s0 [a, x, c] = Except.ok s3 := by
      unfold processAll
      rw [hstep1]
      show processAll env s1 [x, c] = Except.ok s3
      unfold processAll
      rw [hstep2]
      show processAll env s2 [c] = Except.ok s3
      unfold processAll
      rw [hstep3]
      rfl
    rw [hall]
  · rw [hfin, emittedRows_flushBatch, emittedRows_appendRow, emittedRows_setAvg, hs3,
      emittedRows_setAvg, hs2, emittedRows_appendRow, emittedRows_appendRow, hs1r,
      emittedRows_setAvg, hs1, emittedRows_setAvg]
    simp [hs0, initState, emittedRows]

/-- C2 witness: a boundary crossing into entity b flushes an open group
of entity a, and a concrete three-reading run (eligible at 5 s, raw at
20 s, eligible at 30 s, same entity and minute) emits two separate
aggregates around the raw row. -/
theorem boundary_flush_and_interleave_witness :
    (groupState "a" 0 2 1 rowW1).Add rowB =
      (groupState rowB.entityID (truncMinute (nullTimeValue rowB.lastUpdated))
        (rowVal rowB) 1 rowB, some (groupState "a" 0 2 1 rowW1).aggRow) ∧
    ∃ sFin, runPipeline envW wmEmpty [srcA, srcX, srcC] = Except.ok sFin ∧
      emittedRows sFin =
        [(groupState srcA.entityID (truncMinute 5000000000)
            (rowVal (builtRow envW srcA energyMetadata.empty (some 5000000000))) 1
            (builtRow envW srcA energyMetadata.empty (some 5000000000))).aggRow,
         builtRow envW srcX energyMetadata.empty (some 20000000000),
         (groupState srcC.entityID (truncMinute 30000000000)
            (rowVal (builtRow envW srcC energyMetadata.empty (some 30000000000))) 1
            (builtRow envW srcC energyMetadata.empty (some 30000000000))).aggRow] :=
  boundary_flush_and_interleave (groupState "a" 0 2 1 rowW1) rowB envW srcA srcX srcC
    5000000000 30000000000 (some 20000000000)
    energyMetadata.empty energyMetadata.empty energyMetadata.empty
    rfl (by decide) rfl (Or.inl (by decide))
    (by norm_num [srcA, floatToNullTime, ratTrunc, nsPerSecond, zeroTimeNs]) (by decide)
    (by decide)
    (by norm_num [srcX, floatToNullTime, ratTrunc, nsPerSecond, zeroTimeNs]) (by decide)
    (by decide)
    (by norm_num [srcC, floatToNullTime, ratTrunc, nsPerSecond, zeroTimeNs]) (by decide)
    (by decide)
    rfl (by decide) (by decide)
    (fun t' ht => by cases ht; decide)

/-- C2 counterexample: with the trailing eligible reading's observedAt
equal to the interleaved raw reading's, the watermark advanced inside the
run skips the trailing reading, so the run emits a single aggregate plus
the raw row (two rows in total) instead of the two aggregates the claim
promises; the claim's premises all hold at this input. -/
theorem interleave_counterexample :
    shouldAggregateRow (builtRow envW srcA2 energyMetadata.empty (some 0)) = true ∧
    shouldAggregateRow (builtRow envW srcC2 energyMetadata.empty (some 30000000000)) = true ∧
    shouldAggregateRow (builtRow envW srcX2 energyMetadata.empty (some 30000000000)) = false ∧
    srcC2.entityID = srcA2.entityID ∧
    truncMinute 30000000000 = truncMinute 0 ∧
    floatToNullTime srcA2.lastUpdatedVal = Except.ok (some 0) ∧
    floatToNullTime srcX2.lastUpdatedVal = Except.ok (some 30000000000) ∧
    floatToNullTime srcC2.lastUpdatedVal = Except.ok (some 30000000000) ∧
    (runEmitted (runPipeline envW wmEmpty [srcA2, srcX2, srcC2])).length = 2 := by
  have hcA2 : floatToNullTime srcA2.lastUpdatedVal = Except.ok (some 0) := by
    norm_num [srcA2, floatToNullTime, ratTrunc, nsPerSecond, zeroTimeNs]
  have hcX2 : floatToNullTime srcX2.lastUpdatedVal = Except.ok (some 30000000000) := by
    norm_num [srcX2, floatToNullTime, ratTrunc, nsPerSecond, zeroTimeNs]
  have hcC2 : floatToNullTime srcC2.lastUpdatedVal = Except.ok (some 30000000000) := by
    norm_num [srcC2, floatToNullTime, ratTrunc, nsPerSecond, zeroTimeNs]
  refine ⟨by decide, by decide, by decide, rfl, by decide, hcA2, hcX2, hcC2, ?_⟩
  -- run the three readings symbolically
  set rowA2 := builtRow envW srcA2 energyMetadata.empty (some 0) with hrA
  set rowX2 := builtRow envW srcX2 energyMetadata.empty (some 30000000000) with hrX
  set GA2 := groupState srcA2.entityID (truncMinute (nullTimeValue rowA2.lastUpdated))
    (rowVal rowA2) 1 rowA2 with hGA2
  set s0 := initState wmEmpty with hs0
  have hAdd2 : s0.averager.Add rowA2 = (GA2, none) := by
    have := Add_inactive s0.averager rowA2 rfl
    simpa [hrA, builtRow] using this
  have hstep1 : processRow envW s0 srcA2 = Except.ok { s0 with averager := GA2 } := by
    rw [processRow_eq envW s0 srcA2 (some 0) energyMetadata.empty hcA2
      (skipsRow_of_none _ _ _ rfl) (by decide)]
    rw [← hrA, if_pos (by decide : shouldAggregateRow rowA2 = true),
      routeAgg_none s0 rowA2 GA2 hAdd2]
  set s1 := { s0 with averager := GA2 } with hs1
  have hFlush2 : s1.averager.Flush = (minuteAverager.resetState, some GA2.aggRow) :=
    Flush_emits GA2 rfl (by simp [hGA2, groupState]) rfl
  set s1r := { s1 with averager := minuteAverager.resetState } with hs1r
  have hstep2 : processRow envW s1 srcX2 =
      Except.ok (appendRow (appendRow s1r GA2.aggRow) rowX2) := by
    rw [processRow_eq envW s1 srcX2 (some 30000000000) energyMetadata.empty hcX2
      (skipsRow_of_none _ _ _ rfl) (by decide)]
    rw [← hrX, if_neg (by decide : ¬ shouldAggregateRow rowX2 = true)]
    unfold routeRaw
    rw [flushAvgStep_emit s1 _ _ hFlush2]
  set s2 := appendRow (appendRow s1r GA2.aggRow) rowX2 with hs2
  -- after the raw row, the watermark sits at 30 s, so the third reading skips
  have haggLu : GA2.aggRow.lastUpdated = some 0 := by
    simp [hGA2, minuteAverager.aggRow, groupState, hrA, builtRow, nullTimeValue]
  have hwm1 : (appendRow s1r GA2.aggRow).watermarks =
      updateWM s1r.watermarks GA2.aggRow.entityID 0 := by
    rw [watermarks_appendRow, haggLu]
    have : s1r.watermarks GA2.aggRow.entityID = none := rfl
    rw [this]
  have haggE : GA2.aggRow.entityID = "e_voltage" := by
    simp [hGA2, minuteAverager.aggRow, groupState, hrA, builtRow, srcA2]
  have hrXlu : rowX2.lastUpdated = some 30000000000 := by simp [hrX, builtRow]
  have hrXe : rowX2.entityID = "e_voltage" := by simp [hrX, builtRow, srcX2]
  have hwm2 : s2.watermarks "e_voltage" = some 30000000000 := by
    rw [hs2, watermarks_appendRow, hrXlu, hrXe, hwm1, haggE]
    have hcur : updateWM s1r.watermarks "e_voltage" 0 "e_voltage" = some 0 := by
      simp [updateWM]
    rw [hcur]
    norm_num [updateWM]
  have hstep3 : processRow envW s2 srcC2 = Except.ok s2 :=
    processRow_skip envW s2 srcC2 30000000000 30000000000 hcC2 hwm2 (le_refl _)
  -- assemble the run and count the emitted rows
  have havg2 : s2.averager = minuteAverager.resetState := by
    rw [hs2, averager_appendRow, averager_appendRow]
  have hfin : finishRun s2 = flushBatch s2 := by
    unfold finishRun
    rw [flushAvgStep_none s2 minuteAverager.resetState
      (by rw [havg2]; exact Flush_inactive _ rfl)]
    have heta : ({ s2 with averager := minuteAverager.resetState } : PipelineState) = s2 := by
      rw [← havg2]
    rw [heta]
  have hall : processAll envW s0 [srcA2, srcX2, srcC2] = Except.ok s2 := by
    unfold processAll
    rw [hstep1]
    show processAll envW s1 [srcX2, srcC2] = Except.ok s2
    unfold processAll
    rw [hstep2]
    show processAll envW s2 [srcC2] = Except.ok s2
    unfold processAll
    rw [hstep3]
    rfl
  have hrun : runPipeline envW wmEmpty [srcA2, srcX2, srcC2] = Except.ok (finishRun s2) := by
    unfold runPipeline
    rw [hall]
  rw [hrun]
  show (emittedRows (finishRun s2)).length = 2
  rw [hfin, emittedRows_flushBatch, hs2, emittedRows_appendRow, emittedRows_appendRow,
    hs1r, emittedRows_setAvg, hs1, emittedRows_setAvg]
  rfl

/-- C8 (amended): an absent input maps to an absent output with no
error; NaN (and infinities, whose Modf fraction is NaN) are a hard
error; a finite value yields the timestamp assembled from the integer
part as whole seconds plus the fraction truncated to nanoseconds, except
that a result equal to the Go zero time is mapped to an absent output
with no error. -/
theorem floatToNullTime_spec :
    floatToNullTime none = Except.ok none ∧
    floatToNullTime (some GoFloat.nan) = Except.error "invalid float for timestamp" ∧
    ∀ q : ℚ,
      (ratTrunc q * nsPerSecond +
          ratTrunc ((q - (ratTrunc q : ℚ)) * (nsPerSecond : ℚ)) ≠ zeroTimeNs →
        floatToNullTime (some (GoFloat.val q)) =
          Except.ok (some (ratTrunc q * nsPerSecond +
            ratTrunc ((q - (ratTrunc q : ℚ)) * (nsPerSecond : ℚ))))) ∧
      (ratTrunc q * nsPerSecond +
          ratTrunc ((q - (ratTrunc q : ℚ)) * (nsPerSecond : ℚ)) = zeroTimeNs →
        floatToNullTime (some (GoFloat.val q)) = Except.ok none) := by
  refine ⟨rfl, rfl, fun q => ⟨fun h => ?_, fun h => ?_⟩⟩
  · simp [floatToNullTime, h]
  · simp [floatToNullTime, h]

/-- C8 witness: the fractional value 1.5 converts to 1.5 billion
nanoseconds. -/
theorem floatToNullTime_spec_witness :
    floatToNullTime (some (GoFloat.val (3 / 2 : ℚ))) =
      Except.ok (some (ratTrunc (3 / 2 : ℚ) * nsPerSecond +
        ratTrunc (((3 / 2 : ℚ) - (ratTrunc (3 / 2 : ℚ) : ℚ)) * (nsPerSecond : ℚ)))) :=
  (floatToNullTime_spec.2.2 (3 / 2)).1
    (by norm_num [ratTrunc, nsPerSecond, zeroTimeNs])

/-- C8 counterexample: the present finite input -62135596800 (the zero
time in epoch seconds) produces an absent output, not the timestamp the
claim promises for every present value. -/
theorem floatToNullTime_zero_counterexample :
    floatToNullTime (some (GoFloat.val (-62135596800 : ℚ))) = Except.ok none ∧
    ratTrunc (-62135596800 : ℚ) * nsPerSecond +
      ratTrunc (((-62135596800 : ℚ) - (ratTrunc (-62135596800 : ℚ) : ℚ)) *
        (nsPerSecond : ℚ)) = zeroTimeNs := by
  have h1 : ratTrunc (-62135596800 : ℚ) = -62135596800 := by
    rw [ratTrunc, if_neg (by norm_num),
      show ((-62135596800 : ℚ)) = ((-62135596800 : Int) : ℚ) by norm_num]
    exact Int.ceil_intCast _
  have h3 : ratTrunc (((-62135596800 : ℚ) - (ratTrunc (-62135596800 : ℚ) : ℚ)) *
      (nsPerSecond : ℚ)) = 0 := by
    rw [h1, show ((-62135596800 : ℚ) - ((-62135596800 : Int) : ℚ)) * (nsPerSecond : ℚ) = 0
      by norm_num]
    rw [ratTrunc, if_pos (le_refl 0)]
    exact Int.floor_zero
  have hsum : ratTrunc (-62135596800 : ℚ) * nsPerSecond +
      ratTrunc (((-62135596800 : ℚ) - (ratTrunc (-62135596800 : ℚ) : ℚ)) *
        (nsPerSecond : ℚ)) = zeroTimeNs := by
    rw [h3, h1, zeroTimeNs]
    ring
  refine ⟨?_, hsum⟩
  simp [floatToNullTime, hsum]

/-- C9 (amended): the energy metadata extractor returns the empty
metadata with no error on any payload that is empty after trimming
whitespace, and an error when the trimmed payload fails to unmarshal; the
GPS coordinate extractor short-circuits only on the exactly-empty
payload, and passes any other payload (whitespace-only included) to the
unmarshaller, failing when it does. -/
theorem extract_empty_and_malformed (u : String → Option (List (String × JVal)))
    (env : Env) (raw : String) :
    (trimSpace raw = "" → extractEnergyMetadata u raw = Except.ok energyMetadata.empty) ∧
    (trimSpace raw ≠ "" → u (trimSpace raw) = none →
      extractEnergyMetadata u raw = Except.error "unmarshal shared_attrs") ∧
    (raw = "" → extractCoordinates env raw = Except.ok (none, none, none)) ∧
    (raw ≠ "" → env.unmarshal raw = none →
      extractCoordinates env raw = Except.error "unmarshal shared_attrs") := by
  refine ⟨fun h => ?_, fun h hu => ?_, fun h => ?_, fun h hu => ?_⟩
  · simp [extractEnergyMetadata, h]
  · simp [extractEnergyMetadata, h, hu]
  · simp [extractCoordinates, h]
  · simp [extractCoordinates, h, hu]

/-- C9 witness: the empty payload is accepted by both extractors, and a
payload the unmarshaller rejects is an error for the energy extractor. -/
theorem extract_empty_and_malformed_witness :
    (trimSpace "" = "" ∧
      extractEnergyMetadata envNone.unmarshal "" = Except.ok energyMetadata.empty) ∧
    (trimSpace "x" ≠ "" ∧
      extractEnergyMetadata envNone.unmarshal "x" =
        Except.error "unmarshal shared_attrs") ∧
    extractCoordinates envNone "" = Except.ok (none, none, none) :=
  ⟨⟨by decide, (extract_empty_and_malformed envNone.unmarshal envNone "").1 (by decide)⟩,
   ⟨by decide,
     (extract_empty_and_malformed envNone.unmarshal envNone "x").2.1 (by decide) rfl⟩,
   (extract_empty_and_malformed envNone.unmarshal envNone "").2.2.1 rfl⟩

/-- C9 counterexample: a whitespace-only payload is accepted with no
error by the energy extractor but is an unmarshal error for the GPS
coordinate extractor, refuting the claim that both extractors treat
whitespace-only payloads as all-absent successes. -/
theorem whitespace_payload_counterexample :
    trimSpace " " = "" ∧
    extractEnergyMetadata envNone.unmarshal " " = Except.ok energyMetadata.empty ∧
    extractCoordinates envNone " " = Except.error "unmarshal shared_attrs" :=
  ⟨by decide, by decide, by decide⟩

/-- C10: the numeric value attached to an exported row is present exactly
when the raw state string is non-empty and the float parser accepts it,
in which case it is the parsed value; an empty or unparsable state yields
an absent numeric value with no error, and the raw row is still appended
to the writer with its original state string. -/
theorem numeric_state_export (env : Env) (s : PipelineState) (src : SourceRow)
    (lt : Option Int) (meta : energyMetadata)
    (hconv : floatToNullTime src.lastUpdatedVal = Except.ok lt)
    (hskip : skipsRow s.watermarks src.entityID lt = false)
    (hmeta : extractEnergyMetadata env.unmarshal src.attributesJSON = Except.ok meta)
    (hraw : shouldAggregateRow (builtRow env src meta lt) = false)
    (hidle : s.averager.active = false) :
    (∀ v : ℚ, parseNumericState env.parseFloat src.state = some v ↔
      (src.state ≠ "" ∧ env.parseFloat src.state = some v)) ∧
    processRow env s src = Except.ok (appendRow s (builtRow env src meta lt)) ∧
    emittedRows (appendRow s (builtRow env src meta lt)) =
      emittedRows s ++ [builtRow env src meta lt] ∧
    (builtRow env src meta lt).state = src.state ∧
    (builtRow env src meta lt).numericState = parseNumericState env.parseFloat src.state := by
  refine ⟨?_, ?_, emittedRows_appendRow _ _, rfl, rfl⟩
  · intro v
    constructor
    · intro h
      unfold parseNumericState at h
      by_cases he : src.state = ""
      · rw [if_pos he] at h; cases h
      · rw [if_neg he] at h
        refine ⟨he, ?_⟩
        cases hp : env.parseFloat src.state with
        | none => rw [hp] at h; cases h
        | some w => rw [hp] at h; exact h
    · rintro ⟨he, hp⟩
      unfold parseNumericState
      rw [if_neg he, hp]
  · rw [processRow_eq env s src lt meta hconv hskip hmeta, hraw]
    simp only [Bool.false_eq_true, if_false]
    unfold routeRaw
    rw [flushAvgStep_none s s.averager (Flush_inactive _ hidle)]

/-- C10 witness: a reading with state "unavailable" (rejected by the
float parser) and no timestamp is still appended as a raw row with an
absent numeric value. -/
theorem numeric_state_export_witness :
    (∀ v : ℚ, parseNumericState envNone.parseFloat srcU.state = some v ↔
      (srcU.state ≠ "" ∧ envNone.parseFloat srcU.state = some v)) ∧
    processRow envNone (initState wmEmpty) srcU =
      Except.ok (appendRow (initState wmEmpty)
        (builtRow envNone srcU energyMetadata.empty none)) ∧
    emittedRows (appendRow (initState wmEmpty)
        (builtRow envNone srcU energyMetadata.empty none)) =
      emittedRows (initState wmEmpty) ++ [builtRow envNone srcU energyMetadata.empty none] ∧
    (builtRow envNone srcU energyMetadata.empty none).state = srcU.state ∧
    (builtRow envNone srcU energyMetadata.empty none).numericState =
      parseNumericState envNone.parseFloat srcU.state :=
  numeric_state_export envNone (initState wmEmpty) srcU none energyMetadata.empty
    rfl rfl (by decide) (by decide) rfl

/-- Below the threshold, appendRow only buffers: the write log is
untouched, the row lands at the end of the buffer, and the counter goes
up by one. -/
lemma appendRow_small (s : PipelineState) (row : energyRow)
    (h : s.rowCount + 1 < energyBatchSize) :
    (appendRow s row).writes = s.writes ∧ (appendRow s row).args = s.args ++ [row] ∧
    (appendRow s row).rowCount = s.rowCount + 1 ∧
    (appendRow s row).averager = s.averager := by
  simp only [appendRow]
  repeat' split
  all_goals first
    | exact ⟨rfl, rfl, rfl, rfl⟩
    | (exfalso; simp_all; omega)

/-- At the threshold, appendRow dispatches exactly one write carrying the
whole buffer and clears it. -/
lemma appendRow_flush (s : PipelineState) (row : energyRow)
    (h : energyBatchSize ≤ s.rowCount + 1) :
    (appendRow s row).writes = s.writes ++ [s.args ++ [row]] ∧
    (appendRow s row).args = [] ∧ (appendRow s row).rowCount = 0 := by
  simp only [appendRow, flushBatch]
  repeat' split
  all_goals first
    | exact ⟨rfl, rfl, rfl⟩
    | (exfalso; simp_all)

/-- A run of appends that stays below the threshold only accumulates the
buffer. -/
lemma appendAll_under (rows : List energyRow) : ∀ s : PipelineState,
    s.args.length + rows.length < energyBatchSize → s.rowCount = s.args.length →
    (appendAll s rows).writes = s.writes ∧ (appendAll s rows).args = s.args ++ rows ∧
    (appendAll s rows).rowCount = s.rowCount + rows.length ∧
    (appendAll s rows).averager = s.averager := by
  induction rows with
  | nil => intro s _ _; simp [appendAll]
  | cons r rs ih =>
    intro s h hc
    have hsmall : s.rowCount + 1 < energyBatchSize := by
      rw [hc]
      simp only [List.length_cons] at h
      omega
    obtain ⟨hw, ha, hr, hav⟩ := appendRow_small s r hsmall
    have hstep : appendAll s (r :: rs) = appendAll (appendRow s r) rs := by
      simp [appendAll]
    rw [hstep]
    obtain ⟨hw2, ha2, hr2, hav2⟩ := ih (appendRow s r)
      (by rw [ha]; simp only [List.length_append, List.length_cons, List.length_nil] at h ⊢
          omega)
      (by rw [hr, hc, ha]; simp)
    refine ⟨hw2.trans hw, ?_, ?_, hav2.trans hav⟩
    · rw [ha2, ha]; simp
    · rw [hr2, hr]; simp only [List.length_cons]; omega

/-- A non-empty buffer is dispatched as one write by flushBatch. -/
lemma flushBatch_of_pos (s : PipelineState) (h : s.rowCount ≠ 0) :
    (flushBatch s).writes = s.writes ++ [s.args] ∧ (flushBatch s).args = [] := by
  unfold flushBatch
  rw [if_neg h]
  exact ⟨rfl, rfl⟩

/-- C6: appending exactly 500 rows to a fresh writer triggers exactly one
write call carrying those 500 rows, leaving the buffer empty before any
501st append; appending 499 rows triggers no write, and the subsequent
flush performs exactly one write carrying those 499 rows; flushing an
empty buffer performs no write at all. -/
theorem batch_boundary (wm : String → Option Int) (rows500 rows499 : List energyRow)
    (h5 : rows500.length = 500) (h4 : rows499.length = 499) :
    ((appendAll (initState wm) rows500).writes = [rows500] ∧
     (appendAll (initState wm) rows500).args = [] ∧
     (appendAll (initState wm) rows500).rowCount = 0) ∧
    ((appendAll (initState wm) rows499).writes = [] ∧
     (appendAll (initState wm) rows499).args = rows499 ∧
     (flushBatch (appendAll (initState wm) rows499)).writes = [rows499] ∧
     (flushBatch (appendAll (initState wm) rows499)).args = []) ∧
    flushBatch (initState wm) = initState wm := by
  have hempty : flushBatch (initState wm) = initState wm := rfl
  have h499 := appendAll_under rows499 (initState wm)
    (by simp [initState, h4, energyBatchSize]) rfl
  obtain ⟨hw4, ha4, hr4, -⟩ := h499
  have hones : (appendAll (initState wm) rows499).writes = [] := by
    rw [hw4]; rfl
  have hones2 : (appendAll (initState wm) rows499).args = rows499 := by
    rw [ha4]; simp [initState]
  have hrc4 : (appendAll (initState wm) rows499).rowCount = 499 := by
    rw [hr4, h4]; simp [initState]
  obtain ⟨hfw, hfa⟩ := flushBatch_of_pos (appendAll (initState wm) rows499)
    (by rw [hrc4]; omega)
  refine ⟨?_, ⟨hones, hones2, by rw [hfw, hones, hones2]; rfl, hfa⟩, hempty⟩
  -- the 500-row case: split off the last append
  have hne : rows500 ≠ [] := by
    intro hnil; rw [hnil] at h5; simp at h5
  have hsplit : rows500.dropLast ++ [rows500.getLast hne] = rows500 :=
    List.dropLast_concat_getLast hne
  have hlen : rows500.dropLast.length = 499 := by
    rw [List.length_dropLast, h5]
  have hunder := appendAll_under rows500.dropLast (initState wm)
    (by simp [initState, hlen, energyBatchSize]) rfl
  obtain ⟨hw, ha, hr, -⟩ := hunder
  have hstep : appendAll (initState wm) rows500 =
      appendRow (appendAll (initState wm) rows500.dropLast) (rows500.getLast hne) := by
    conv_lhs => rw [← hsplit]
    unfold appendAll
    rw [List.foldl_concat]
  have hrc : (appendAll (initState wm) rows500.dropLast).rowCount = 499 := by
    rw [hr, hlen]; simp [initState]
  obtain ⟨hfw2, hfa2, hfr2⟩ := appendRow_flush
    (appendAll (initState wm) rows500.dropLast) (rows500.getLast hne)
    (by rw [hrc]; simp [energyBatchSize])
  refine ⟨?_, by rw [hstep]; exact hfa2, by rw [hstep]; exact hfr2⟩
  rw [hstep, hfw2, hw, ha]
  simp [initState, hsplit]

/-- C6 witness: five hundred copies of a reading trigger one write of all
of them; 499 copies wait for the flush. -/
theorem batch_boundary_witness :
    ((appendAll (initState wmEmpty) (List.replicate 500 rowB)).writes =
        [List.replicate 500 rowB] ∧
     (appendAll (initState wmEmpty) (List.replicate 500 rowB)).args = [] ∧
     (appendAll (initState wmEmpty) (List.replicate 500 rowB)).rowCount = 0) ∧
    ((appendAll (initState wmEmpty) (List.replicate 499 rowB)).writes = [] ∧
     (appendAll (initState wmEmpty) (List.replicate 499 rowB)).args =
        List.replicate 499 rowB ∧
     (flushBatch (appendAll (initState wmEmpty) (List.replicate 499 rowB))).writes =
        [List.replicate 499 rowB] ∧
     (flushBatch (appendAll (initState wmEmpty) (List.replicate 499 rowB))).args = []) ∧
    flushBatch (initState wmEmpty) = initState wmEmpty :=
  batch_boundary wmEmpty (List.replicate 500 rowB) (List.replicate 499 rowB)
    (List.length_replicate 500 rowB) (List.length_replicate 499 rowB)

/-- Add never returns its input state unchanged: it either opens a
group, grows the open group's count, or replaces the group wholesale
across a boundary. -/
lemma Add_fst_ne (m : minuteAverager) (row : energyRow) : (m.Add row).1 ≠ m := by
  by_cases hact : m.active = true
  · by_cases hb : row.entityID ≠ m.entityID ∨
        truncMinute (nullTimeValue row.lastUpdated) ≠ m.minute
    · have hshape : (m.Add row).1 =
          groupState row.entityID (truncMinute (nullTimeValue row.lastUpdated))
            (rowVal row) 1 row := by
        by_cases hwf : m.count ≠ 0 ∧ m.maxTimeValid = true
        · rw [Add_active_boundary m row hact hwf.1 hwf.2 hb]
        · have hd : m.count = 0 ∨ m.maxTimeValid = false := by
            by_cases hc : m.count = 0
            · exact Or.inl hc
            · refine Or.inr ?_
              by_cases hv : m.maxTimeValid = true
              · exact absurd ⟨hc, hv⟩ hwf
              · simpa using hv
          rw [Add_active_boundary_discard m row hact hd hb]
      rw [hshape]
      intro hcontra
      rcases hb with hb | hb
      · exact hb (congrArg minuteAverager.entityID hcontra)
      · exact hb (congrArg minuteAverager.minute hcontra)
    · have he : row.entityID = m.entityID := by
        by_contra hne
        exact hb (Or.inl hne)
      have hm : truncMinute (nullTimeValue row.lastUpdated) = m.minute := by
        by_contra hne
        exact hb (Or.inr hne)
      rw [Add_active_same m row hact he hm]
      intro hcontra
      have hcnt := congrArg minuteAverager.count hcontra
      by_cases hc : m.maxTimeValid = false ∨ m.maxTime < nullTimeValue row.lastUpdated ∨
          (nullTimeValue row.lastUpdated = m.maxTime ∧ m.stateID < row.stateID)
      · rw [if_pos hc] at hcnt; simp at hcnt
      · rw [if_neg hc] at hcnt; simp at hcnt
  · have hact' : m.active = false := by simpa using hact
    rw [Add_inactive m row hact']
    intro hcontra
    have := congrArg minuteAverager.active hcontra
    rw [hact'] at this
    simp [groupState] at this

/-- Flushing into the writer never shrinks the list of handled rows. -/
lemma emittedRows_flushAvgStep_ge (s : PipelineState) :
    (emittedRows s).length ≤ (emittedRows (flushAvgStep s)).length := by
  cases hflush : s.averager.Flush with
  | mk m' em =>
    cases em with
    | none =>
      rw [flushAvgStep_none s m' hflush]
      exact le_refl _
    | some r =>
      rw [flushAvgStep_emit s m' r hflush, emittedRows_appendRow]
      simp only [List.length_append, List.length_cons, List.length_nil]
      exact Nat.le_succ _

/-- Routing a raw row always changes the state: the handled-row list
grows. -/
lemma routeRaw_ne (s : PipelineState) (row : energyRow) : routeRaw s row ≠ s := by
  intro h
  have hlen := congrArg (fun st => (emittedRows st).length) h
  simp only [routeRaw, emittedRows_appendRow, List.length_append, List.length_cons,
    List.length_nil] at hlen
  have hge := emittedRows_flushAvgStep_ge s
  omega

/-- Routing an eligible row always changes the state: either the averager
state moves or an aggregate lands in the writer. -/
lemma routeAgg_ne (s : PipelineState) (row : energyRow) : routeAgg s row ≠ s := by
  cases hAdd : s.averager.Add row with
  | mk m' em =>
    cases em with
    | none =>
      rw [routeAgg_none s row m' hAdd]
      intro h
      have hav := congrArg PipelineState.averager h
      have : (s.averager.Add row).1 = s.averager := by rw [hAdd]; exact hav
      exact Add_fst_ne s.averager row this
    | some r =>
      rw [routeAgg_emit s row m' r hAdd]
      intro h
      have hlen := congrArg (fun st => (emittedRows st).length) h
      simp only [emittedRows_appendRow, emittedRows_setAvg, List.length_append,
        List.length_cons, List.length_nil] at hlen
      omega

/-- C4: the loop leaves the state untouched for a reading exactly when
the reading's converted observedAt is present and not strictly after the
entity's stored watermark; readings with an absent observedAt or with no
watermark entry for their entity are always processed further. -/
theorem skip_iff (env : Env) (s : PipelineState) (src : SourceRow) :
    processRow env s src = Except.ok s ↔
      ∃ t, floatToNullTime src.lastUpdatedVal = Except.ok (some t) ∧
        ∃ w, s.watermarks src.entityID = some w ∧ t ≤ w := by
  constructor
  · intro h
    cases hconv : floatToNullTime src.lastUpdatedVal with
    | error e =>
      unfold processRow at h
      rw [hconv] at h
      exact absurd h (by simp)
    | ok lt =>
      cases hsk : skipsRow s.watermarks src.entityID lt with
      | true =>
        cases hlt : lt with
        | none => rw [hlt] at hsk; simp [skipsRow] at hsk
        | some t =>
          rw [hlt] at hsk
          cases hw : s.watermarks src.entityID with
          | none => simp [skipsRow, hw] at hsk
          | some w =>
            simp only [skipsRow, hw, decide_eq_true_eq] at hsk
            exact ⟨t, rfl, w, rfl, hsk⟩
      | false =>
        exfalso
        cases hmeta : extractEnergyMetadata env.unmarshal src.attributesJSON with
        | error e =>
          unfold processRow at h
          rw [hconv] at h
          simp [hsk, hmeta] at h
        | ok meta =>
          rw [processRow_eq env s src lt meta hconv hsk hmeta] at h
          have h2 := Except.ok.inj h
          by_cases hagg : shouldAggregateRow (builtRow env src meta lt) = true
          · rw [if_pos hagg] at h2
            exact routeAgg_ne _ _ h2
          · rw [if_neg hagg] at h2
            exact routeRaw_ne _ _ h2
  · rintro ⟨t, hconv, w, hw, hle⟩
    exact processRow_skip env s src t w hconv hw hle

/-- Flushing the averager into the writer only ever raises watermark
entries. -/
lemma wmLE_flushAvgStep (s : PipelineState) :
    wmLE s.watermarks (flushAvgStep s).watermarks := by
  cases hflush : s.averager.Flush with
  | mk m' em =>
    cases em with
    | none =>
      rw [flushAvgStep_none s m' hflush]
      exact wmLE_refl _
    | some r =>
      rw [flushAvgStep_emit s m' r hflush]
      exact wmLE_appendRow { s with averager := m' } r

/-- The skip branch in terms of the boolean filter. -/
lemma processRow_skip_bool (env : Env) (s : PipelineState) (src : SourceRow)
    (lt : Option Int)
    (hconv : floatToNullTime src.lastUpdatedVal = Except.ok lt)
    (hsk : skipsRow s.watermarks src.entityID lt = true) :
    processRow env s src = Except.ok s := by
  unfold processRow
  rw [hconv]
  simp [hsk]

/-- One loop iteration only ever raises watermark entries. -/
lemma wmLE_processRow (env : Env) (s s' : PipelineState) (src : SourceRow)
    (h : processRow env s src = Except.ok s') :
    wmLE s.watermarks s'.watermarks := by
  cases hconv : floatToNullTime src.lastUpdatedVal with
  | error e =>
    unfold processRow at h
    rw [hconv] at h
    exact absurd h (by simp)
  | ok lt =>
    cases hsk : skipsRow s.watermarks src.entityID lt with
    | true =>
      rw [processRow_skip_bool env s src lt hconv hsk] at h
      rw [← Except.ok.inj h]
      exact wmLE_refl _
    | false =>
      cases hmeta : extractEnergyMetadata env.unmarshal src.attributesJSON with
      | error e =>
        unfold processRow at h
        rw [hconv] at h
        simp [hsk, hmeta] at h
      | ok meta =>
        rw [processRow_eq env s src lt meta hconv hsk hmeta] at h
        have h2 := Except.ok.inj h
        by_cases hagg : shouldAggregateRow (builtRow env src meta lt) = true
        · rw [if_pos hagg] at h2
          rw [← h2]
          cases hAdd : s.averager.Add (builtRow env src meta lt) with
          | mk m' em =>
            cases em with
            | none =>
              rw [routeAgg_none s _ m' hAdd]
              exact wmLE_refl _
            | some r =>
              rw [routeAgg_emit s _ m' r hAdd]
              exact wmLE_appendRow { s with averager := m' } r
        · rw [if_neg hagg] at h2
          rw [← h2]
          unfold routeRaw
          exact wmLE_trans _ _ _ (wmLE_flushAvgStep s)
            (wmLE_appendRow (flushAvgStep s) _)

/-- The whole scan loop only ever raises watermark entries. -/
lemma wmLE_processAll (env : Env) : ∀ (rows : List SourceRow) (s s' : PipelineState),
    processAll env s rows = Except.ok s' → wmLE s.watermarks s'.watermarks := by
  intro rows
  induction rows with
  | nil =>
    intro s s' h
    unfold processAll at h
    rw [← Except.ok.inj h]
    exact wmLE_refl _
  | cons r rs ih =>
    intro s s' h
    unfold processAll at h
    cases hstep : processRow env s r with
    | error e => rw [hstep] at h; exact absurd h (by simp)
    | ok s1 =>
      rw [hstep] at h
      exact wmLE_trans _ _ _ (wmLE_processRow env s s1 r hstep) (ih s1 s' h)

/-- Ending the run only ever raises watermark entries. -/
lemma wmLE_finishRun (s : PipelineState) :
    wmLE s.watermarks (finishRun s).watermarks := by
  unfold finishRun
  rw [watermarks_flushBatch]
  exact wmLE_flushAvgStep s

/-- C7: over a whole run the in-memory watermark map is pointwise
non-decreasing; the skip filter returns the state untouched and so never
mutates the map; and appendRow advances an entry exactly when the
appended row carries a valid timestamp for that entity strictly beyond
the current entry or the entity has no entry, leaving the map untouched
in every other case. -/
theorem watermark_monotonic (env : Env) (wm : String → Option Int)
    (rows : List SourceRow) (s' : PipelineState)
    (h : runPipeline env wm rows = Except.ok s') :
    (∀ e w, wm e = some w → ∃ w', s'.watermarks e = some w' ∧ w ≤ w') ∧
    (∀ (s0 : PipelineState) (src : SourceRow) (t w : Int),
      floatToNullTime src.lastUpdatedVal = Except.ok (some t) →
      s0.watermarks src.entityID = some w → t ≤ w →
      processRow env s0 src = Except.ok s0) ∧
    (∀ (s0 : PipelineState) (row : energyRow),
      (row.lastUpdated = none → (appendRow s0 row).watermarks = s0.watermarks) ∧
      (∀ e, e ≠ row.entityID → (appendRow s0 row).watermarks e = s0.watermarks e) ∧
      (∀ t w, row.lastUpdated = some t → s0.watermarks row.entityID = some w → t ≤ w →
        (appendRow s0 row).watermarks = s0.watermarks) ∧
      (∀ t, row.lastUpdated = some t →
        (s0.watermarks row.entityID = none ∨
          ∃ w, s0.watermarks row.entityID = some w ∧ w < t) →
        (appendRow s0 row).watermarks row.entityID = some t)) := by
  refine ⟨?_, ?_, ?_⟩
  · unfold runPipeline at h
    cases hall : processAll env (initState wm) rows with
    | error e => rw [hall] at h; exact absurd h (by simp)
    | ok s1 =>
      rw [hall] at h
      have hs' : s' = finishRun s1 := (Except.ok.inj h).symm
      rw [hs']
      exact wmLE_trans _ _ _ (wmLE_processAll env rows (initState wm) s1 hall)
        (wmLE_finishRun s1)
  · intro s0 src t w hconv hw hle
    exact processRow_skip env s0 src t w hconv hw hle
  · intro s0 row
    refine ⟨?_, ?_, ?_, ?_⟩
    · intro hlu
      rw [watermarks_appendRow, hlu]
    · intro e he
      rw [watermarks_appendRow]
      cases hlu : row.lastUpdated with
      | none => rfl
      | some t =>
        cases hw : s0.watermarks row.entityID with
        | none =>
          show updateWM s0.watermarks row.entityID t e = s0.watermarks e
          simp [updateWM, he]
        | some w =>
          show (if w < t then updateWM s0.watermarks row.entityID t else s0.watermarks) e =
            s0.watermarks e
          by_cases hlt : w < t
          · rw [if_pos hlt]; simp [updateWM, he]
          · rw [if_neg hlt]
    · intro t w hlu hw hle
      rw [watermarks_appendRow, hlu, hw]
      show (if w < t then updateWM s0.watermarks row.entityID t else s0.watermarks) =
        s0.watermarks
      rw [if_neg (by omega)]
    · intro t hlu hcond
      rw [watermarks_appendRow, hlu]
      rcases hcond with hnone | ⟨w, hsome, hlt⟩
      · rw [hnone]
        show updateWM s0.watermarks row.entityID t row.entityID = some t
        simp [updateWM]
      · rw [hsome]
        show (if w < t then updateWM s0.watermarks row.entityID t else s0.watermarks)
          row.entityID = some t
        rw [if_pos hlt]
        simp [updateWM]

/-- C7 witness: a concrete one-row run from a map holding entity e at
time zero keeps an entry at least as late for e, and the skip and
advance rules instantiate at the same concrete environment. -/
theorem watermark_monotonic_witness :
    (∀ e w, wmW e = some w → ∃ w', sW.watermarks e = some w' ∧ w ≤ w') ∧
    (∀ (s0 : PipelineState) (src : SourceRow) (t w : Int),
      floatToNullTime src.lastUpdatedVal = Except.ok (some t) →
      s0.watermarks src.entityID = some w → t ≤ w →
      processRow envNone s0 src = Except.ok s0) ∧
    (∀ (s0 : PipelineState) (row : energyRow),
      (row.lastUpdated = none → (appendRow s0 row).watermarks = s0.watermarks) ∧
      (∀ e, e ≠ row.entityID → (appendRow s0 row).watermarks e = s0.watermarks e) ∧
      (∀ t w, row.lastUpdated = some t → s0.watermarks row.entityID = some w → t ≤ w →
        (appendRow s0 row).watermarks = s0.watermarks) ∧
      (∀ t, row.lastUpdated = some t →
        (s0.watermarks row.entityID = none ∨
          ∃ w, s0.watermarks row.entityID = some w ∧ w < t) →
        (appendRow s0 row).watermarks row.entityID = some t)) :=
  watermark_monotonic envNone wmW [srcU] sW (by rfl)

/-! ### The watermark loader computes an attained per-entity maximum -/

/-- Folding more rows on top of an existing accumulator can only raise
it. -/
lemma wmFold_mono (e : String) : ∀ (sink : List energyRow) (w0 : Int),
    ∃ w', sink.foldl (wmFoldStep e) (some w0) = some w' ∧ w0 ≤ w' := by
  intro sink
  induction sink with
  | nil => intro w0; exact ⟨w0, rfl, le_refl _⟩
  | cons r rs ih =>
    intro w0
    have hstep : ∃ w1, wmFoldStep e (some w0) r = some w1 ∧ w0 ≤ w1 := by
      unfold wmFoldStep
      by_cases he : r.entityID = e
      · rw [if_pos he]
        cases hlu : r.lastUpdated with
        | none => exact ⟨w0, rfl, le_refl _⟩
        | some t => exact ⟨max w0 t, rfl, le_max_left _ _⟩
      · rw [if_neg he]; exact ⟨w0, rfl, le_refl _⟩
    obtain ⟨w1, hs, hle⟩ := hstep
    obtain ⟨w', hw', hle'⟩ := ih w1
    refine ⟨w', ?_, le_trans hle hle'⟩
    rw [List.foldl_cons, hs]
    exact hw'

/-- Any member row with a valid timestamp forces the fold to produce a
value at least that timestamp. -/
lemma wmFold_mem (e : String) : ∀ (sink : List energyRow) (acc : Option Int)
    (r : energyRow), r ∈ sink → r.entityID = e → ∀ u, r.lastUpdated = some u →
    ∃ w', sink.foldl (wmFoldStep e) acc = some w' ∧ u ≤ w' := by
  intro sink
  induction sink with
  | nil => intro acc r hr; cases hr
  | cons x xs ih =>
    intro acc r hr he u hu
    rcases List.mem_cons.mp hr with heq | hmem
    · subst heq
      rw [List.foldl_cons]
      have hstep : ∃ w1, wmFoldStep e acc r = some w1 ∧ u ≤ w1 := by
        unfold wmFoldStep
        rw [if_pos he, hu]
        cases acc with
        | none => exact ⟨u, rfl, le_refl _⟩
        | some w => exact ⟨max w u, rfl, le_max_right _ _⟩
      obtain ⟨w1, hs, hle⟩ := hstep
      rw [hs]
      obtain ⟨w', hw', hle'⟩ := wmFold_mono e xs w1
      exact ⟨w', hw', le_trans hle hle'⟩
    · rw [List.foldl_cons]
      exact ih (wmFoldStep e acc x) r hmem he u hu

/-- The fold's value is attained: it is the accumulator or some member
row's valid timestamp. -/
lemma wmFold_attained (e : String) : ∀ (sink : List energyRow) (acc : Option Int)
    (w : Int), sink.foldl (wmFoldStep e) acc = some w →
    acc = some w ∨ ∃ r ∈ sink, r.entityID = e ∧ r.lastUpdated = some w := by
  intro sink
  induction sink with
  | nil => intro acc w h; exact Or.inl h
  | cons x xs ih =>
    intro acc w h
    rw [List.foldl_cons] at h
    rcases ih (wmFoldStep e acc x) w h with hacc | ⟨r, hr, he, hu⟩
    · unfold wmFoldStep at hacc
      by_cases hx : x.entityID = e
      · rw [if_pos hx] at hacc
        cases hlu : x.lastUpdated with
        | none => rw [hlu] at hacc; exact Or.inl hacc
        | some t =>
          rw [hlu] at hacc
          cases acc with
          | none =>
            refine Or.inr ⟨x, List.mem_cons_self _ _, hx, ?_⟩
            rw [hlu]
            exact hacc
          | some w0 =>
            have hw := Option.some.inj hacc
            rcases max_choice w0 t with hmax | hmax
            · refine Or.inl ?_
              rw [← hw, hmax]
            · refine Or.inr ⟨x, List.mem_cons_self _ _, hx, ?_⟩
              rw [hlu, ← hw, hmax]
      · rw [if_neg hx] at hacc
        exact Or.inl hacc
    · exact Or.inr ⟨r, List.mem_cons_of_mem _ hr, he, hu⟩

/-- A covered timestamp is dominated by the loaded watermark. -/
lemma load_some_of_covered (sink : List energyRow) (e : String) (t : Int)
    (h : covered sink e t) :
    ∃ w, loadEnergyEntityWatermarks sink e = some w ∧ t ≤ w := by
  obtain ⟨r, hr, he, u, hu, htu⟩ := h
  obtain ⟨w', hw', hle⟩ := wmFold_mem e sink none r hr he u hu
  exact ⟨w', hw', le_trans htu hle⟩

/-- A loaded watermark entry is itself covered by the sink. -/
lemma covered_of_load (sink : List energyRow) (e : String) (w : Int)
    (h : loadEnergyEntityWatermarks sink e = some w) : covered sink e w := by
  rcases wmFold_attained e sink none w h with hacc | ⟨r, hr, he, hu⟩
  · cases hacc
  · exact ⟨r, hr, he, w, hu, le_refl _⟩

/-! ### Coverage bookkeeping -/

/-- Coverage survives growing the row list on the right. -/
lemma covered_append_left (L L' : List energyRow) (e : String) (t : Int)
    (h : covered L e t) : covered (L ++ L') e t := by
  obtain ⟨r, hr, he, u, hu, htu⟩ := h
  exact ⟨r, List.mem_append_left _ hr, he, u, hu, htu⟩

/-- A single appended row covers every timestamp up to its own. -/
lemma covered_append_elem (L : List energyRow) (e : String) (t : Int)
    (r : energyRow) (he : r.entityID = e) (u : Int) (hu : r.lastUpdated = some u)
    (htu : t ≤ u) : covered (L ++ [r]) e t :=
  ⟨r, List.mem_append_right _ (List.mem_singleton.mpr rfl), he, u, hu, htu⟩

/-- Coverage is downward closed in the timestamp. -/
lemma covered_le (L : List energyRow) (e : String) (t t' : Int)
    (h : covered L e t) (hle : t' ≤ t) : covered L e t' := by
  obtain ⟨r, hr, he, u, hu, htu⟩ := h
  exact ⟨r, hr, he, u, hu, le_trans hle htu⟩

/-- After any Add the averager holds an open, well-formed group for the
incoming reading's entity whose representative time dominates the
reading's. -/
lemma Add_fst_props (m : minuteAverager) (row : energyRow) :
    (m.Add row).1.active = true ∧ (m.Add row).1.count ≠ 0 ∧
    (m.Add row).1.maxTimeValid = true ∧ (m.Add row).1.entityID = row.entityID ∧
    nullTimeValue row.lastUpdated ≤ (m.Add row).1.maxTime := by
  by_cases hact : m.active = true
  · by_cases hb : row.entityID ≠ m.entityID ∨
        truncMinute (nullTimeValue row.lastUpdated) ≠ m.minute
    · have hshape : (m.Add row).1 =
          groupState row.entityID (truncMinute (nullTimeValue row.lastUpdated))
            (rowVal row) 1 row := by
        by_cases hwf : m.count ≠ 0 ∧ m.maxTimeValid = true
        · rw [Add_active_boundary m row hact hwf.1 hwf.2 hb]
        · have hd : m.count = 0 ∨ m.maxTimeValid = false := by
            by_cases hc : m.count = 0
            · exact Or.inl hc
            · refine Or.inr ?_
              by_cases hv : m.maxTimeValid = true
              · exact absurd ⟨hc, hv⟩ hwf
              · simpa using hv
          rw [Add_active_boundary_discard m row hact hd hb]
      rw [hshape]
      exact ⟨rfl, by simp [groupState], rfl, rfl, le_refl _⟩
    · have he : row.entityID = m.entityID := by
        by_contra hne; exact hb (Or.inl hne)
      have hm : truncMinute (nullTimeValue row.lastUpdated) = m.minute := by
        by_contra hne; exact hb (Or.inr hne)
      rw [Add_active_same m row hact he hm]
      by_cases hc : m.maxTimeValid = false ∨ m.maxTime < nullTimeValue row.lastUpdated ∨
          (nullTimeValue row.lastUpdated = m.maxTime ∧ m.stateID < row.stateID)
      · rw [if_pos hc]
        exact ⟨hact, by simp, rfl, he.symm, le_refl _⟩
      · rw [if_neg hc]
        have hmv : m.maxTimeValid = true := by
          by_contra hne
          exact hc (Or.inl (by simpa using hne))
        have hle : nullTimeValue row.lastUpdated ≤ m.maxTime := by
          by_contra hlt
          push_neg at hlt
          exact hc (Or.inr (Or.inl hlt))
        exact ⟨hact, by simp, hmv, he.symm, hle⟩
  · have hact' : m.active = false := by simpa using hact
    rw [Add_inactive m row hact']
    exact ⟨rfl, by simp [groupState], rfl, rfl, le_refl _⟩

/-- Either Add emits the closed group's aggregate, or it emits nothing
and (when a well-formed group was open) keeps accumulating into the same
entity's group without lowering the representative time. -/
lemma Add_snd_cases (m : minuteAverager) (row : energyRow)
    (hwfa : m.active = true → (m.count ≠ 0 ∧ m.maxTimeValid = true)) :
    ((m.Add row).2 = some m.aggRow ∧ m.active = true) ∨
    ((m.Add row).2 = none ∧ (m.active = true →
      ((m.Add row).1.entityID = m.entityID ∧ m.maxTime ≤ (m.Add row).1.maxTime))) := by
  by_cases hact : m.active = true
  · obtain ⟨hc, hv⟩ := hwfa hact
    by_cases hb : row.entityID ≠ m.entityID ∨
        truncMinute (nullTimeValue row.lastUpdated) ≠ m.minute
    · rw [Add_active_boundary m row hact hc hv hb]
      exact Or.inl ⟨rfl, hact⟩
    · have he : row.entityID = m.entityID := by
        by_contra hne; exact hb (Or.inl hne)
      have hm : truncMinute (nullTimeValue row.lastUpdated) = m.minute := by
        by_contra hne; exact hb (Or.inr hne)
      rw [Add_active_same m row hact he hm]
      refine Or.inr ⟨by split <;> rfl, fun _ => ?_⟩
      by_cases hcond : m.maxTimeValid = false ∨ m.maxTime < nullTimeValue row.lastUpdated ∨
          (nullTimeValue row.lastUpdated = m.maxTime ∧ m.stateID < row.stateID)
      · rw [if_pos hcond]
        refine ⟨rfl, ?_⟩
        rcases hcond with hf | hlt | ⟨heq, -⟩
        · rw [hv] at hf; cases hf
        · exact le_of_lt hlt
        · exact le_of_eq heq.symm
      · rw [if_neg hcond]
        exact ⟨rfl, le_refl _⟩
  · have hact' : m.active = false := by simpa using hact
    rw [Add_inactive m row hact']
    exact Or.inr ⟨rfl, fun h => absurd h hact⟩

/-- The aggregate row of a group carries the group's entity and
representative time. -/
lemma aggRow_entity_time (m : minuteAverager) :
    m.aggRow.entityID = m.entityID ∧ m.aggRow.lastUpdated = some m.maxTime :=
  ⟨rfl, rfl⟩

/-- Coverage by sink plus handled rows survives an append. -/
lemma covered_appendRow (sink0 : List energyRow) (s : PipelineState) (r : energyRow)
    (e : String) (t : Int) (h : covered (sink0 ++ emittedRows s) e t) :
    covered (sink0 ++ emittedRows (appendRow s r)) e t := by
  rw [emittedRows_appendRow, ← List.append_assoc]
  exact covered_append_left _ _ _ _ h

/-- An appended row covers its own entity up to its own timestamp. -/
lemma covered_appendRow_self (sink0 : List energyRow) (s : PipelineState)
    (r : energyRow) (e : String) (t : Int) (he : r.entityID = e) (u : Int)
    (hu : r.lastUpdated = some u) (htu : t ≤ u) :
    covered (sink0 ++ emittedRows (appendRow s r)) e t := by
  rw [emittedRows_appendRow, ← List.append_assoc]
  exact covered_append_elem _ _ _ r he u hu htu

/-- appendRow keeps every watermark entry covered: entries it creates or
raises are covered by the appended row itself. -/
lemma Inv0_appendRow_wm (sink0 : List energyRow) (s : PipelineState) (r : energyRow)
    (hwm : ∀ e w, s.watermarks e = some w → covered (sink0 ++ emittedRows s) e w) :
    ∀ e w, (appendRow s r).watermarks e = some w →
      covered (sink0 ++ emittedRows (appendRow s r)) e w := by
  intro e w hw
  rw [watermarks_appendRow] at hw
  cases hlu : r.lastUpdated with
  | none =>
    rw [hlu] at hw
    exact covered_appendRow _ _ _ _ _ (hwm e w hw)
  | some t =>
    rw [hlu] at hw
    cases hwe : s.watermarks r.entityID with
    | none =>
      rw [hwe] at hw
      have hw' : updateWM s.watermarks r.entityID t e = some w := hw
      by_cases he : e = r.entityID
      · have hwt : w = t := by
          have := hw'
          simp [updateWM, he] at this
          exact this.symm
        exact covered_appendRow_self _ _ _ _ _ he.symm t hlu (le_of_eq hwt)
      · have hold : s.watermarks e = some w := by simpa [updateWM, he] using hw'
        exact covered_appendRow _ _ _ _ _ (hwm e w hold)
    | some w0 =>
      rw [hwe] at hw
      have hw' : (if w0 < t then updateWM s.watermarks r.entityID t else s.watermarks) e =
          some w := hw
      by_cases hlt : w0 < t
      · rw [if_pos hlt] at hw'
        by_cases he : e = r.entityID
        · have hwt : w = t := by
            have := hw'
            simp [updateWM, he] at this
            exact this.symm
          exact covered_appendRow_self _ _ _ _ _ he.symm t hlu (le_of_eq hwt)
        · have hold : s.watermarks e = some w := by simpa [updateWM, he] using hw'
          exact covered_appendRow _ _ _ _ _ (hwm e w hold)
      · rw [if_neg hlt] at hw'
        exact covered_appendRow _ _ _ _ _ (hwm e w hw')

/-- One successful loop iteration preserves the idempotence invariant,
keeps every previously accounted timestamp accounted, and accounts for
its own reading's timestamp. -/
lemma step_preserves (env : Env) (sink0 : List energyRow) (s s' : PipelineState)
    (src : SourceRow) (h : processRow env s src = Except.ok s')
    (hinv : Inv0 sink0 s) :
    Inv0 sink0 s' ∧
    (∀ e t, coveredOrPending sink0 s e t → coveredOrPending sink0 s' e t) ∧
    (∀ t, floatToNullTime src.lastUpdatedVal = Except.ok (some t) →
      coveredOrPending sink0 s' src.entityID t) := by
  obtain ⟨hwm, hwf, hcnt⟩ := hinv
  cases hconv : floatToNullTime src.lastUpdatedVal with
  | error e0 =>
    unfold processRow at h
    rw [hconv] at h
    exact absurd h (by simp)
  | ok lt =>
    cases hsk : skipsRow s.watermarks src.entityID lt with
    | true =>
      rw [processRow_skip_bool env s src lt hconv hsk] at h
      have hss : s = s' := Except.ok.inj h
      subst hss
      refine ⟨⟨hwm, hwf, hcnt⟩, fun e t hcp => hcp, ?_⟩
      intro t hc
      have hlt : lt = some t := Except.ok.inj hc
      subst hlt
      cases hwe : s.watermarks src.entityID with
      | none => simp [skipsRow, hwe] at hsk
      | some w =>
        have hle : t ≤ w := by simpa [skipsRow, hwe] using hsk
        exact Or.inl (covered_le _ _ _ _ (hwm src.entityID w hwe) hle)
    | false =>
      cases hmeta : extractEnergyMetadata env.unmarshal src.attributesJSON with
      | error e0 =>
        unfold processRow at h
        rw [hconv] at h
        simp [hsk, hmeta] at h
      | ok meta =>
        rw [processRow_eq env s src lt meta hconv hsk hmeta] at h
        have h2 := Except.ok.inj h
        by_cases hagg : shouldAggregateRow (builtRow env src meta lt) = true
        · -- aggregation route
          rw [if_pos hagg] at h2
          have hpair : s.averager.Add (builtRow env src meta lt) =
              ((s.averager.Add (builtRow env src meta lt)).1,
               (s.averager.Add (builtRow env src meta lt)).2) := rfl
          obtain ⟨hpa, hpc, hpv, hpe, hpt⟩ := Add_fst_props s.averager (builtRow env src meta lt)
          rcases Add_snd_cases s.averager (builtRow env src meta lt) hwf with
            ⟨hem, hact⟩ | ⟨hem, hmono⟩
          · -- a boundary crossing: the closed aggregate is appended
            rw [hem] at hpair
            have hroute := routeAgg_emit s (builtRow env src meta lt) _ _ hpair
            rw [hroute] at h2
            obtain ⟨hc0, hv0⟩ := hwf hact
            rw [← h2]
            refine ⟨⟨?_, ?_, ?_⟩, ?_, ?_⟩
            · exact Inv0_appendRow_wm sink0 _ _ (fun e w hw => hwm e w hw)
            · rw [averager_appendRow]
              intro _
              exact ⟨hpc, hpv⟩
            · exact cnt_appendRow _ _ hcnt
            · intro e t hcp
              rcases hcp with hcov | ⟨hpact, hpent, hpmv, hple⟩
              · exact Or.inl (covered_appendRow _ _ _ _ _ hcov)
              · refine Or.inl (covered_appendRow_self _ _ _ _ _ ?_ s.averager.maxTime rfl hple)
                exact hpent
            · intro t hc
              have hlt : lt = some t := Except.ok.inj hc
              refine Or.inr ?_
              rw [averager_appendRow]
              refine ⟨hpa, ?_, hpv, ?_⟩
              · rw [hpe]; rfl
              · have : nullTimeValue (builtRow env src meta lt).lastUpdated = t := by
                  rw [show (builtRow env src meta lt).lastUpdated = lt from rfl, hlt]
                  rfl
                rw [← this]
                exact hpt
          · -- same open group: nothing is emitted
            rw [hem] at hpair
            have hroute := routeAgg_none s (builtRow env src meta lt) _ hpair
            rw [hroute] at h2
            rw [← h2]
            refine ⟨⟨?_, ?_, ?_⟩, ?_, ?_⟩
            · exact fun e w hw => hwm e w hw
            · intro _
              exact ⟨hpc, hpv⟩
            · exact hcnt
            · intro e t hcp
              rcases hcp with hcov | ⟨hpact, hpent, hpmv, hple⟩
              · exact Or.inl hcov
              · obtain ⟨hent, hmax⟩ := hmono hpact
                exact Or.inr ⟨hpa, by rw [hent]; exact hpent, hpv, le_trans hple hmax⟩
            · intro t hc
              have hlt : lt = some t := Except.ok.inj hc
              refine Or.inr ⟨hpa, by rw [hpe]; rfl, hpv, ?_⟩
              have : nullTimeValue (builtRow env src meta lt).lastUpdated = t := by
                rw [show (builtRow env src meta lt).lastUpdated = lt from rfl, hlt]
                rfl
              rw [← this]
              exact hpt
        · -- raw route
          rw [if_neg hagg] at h2
          rw [← h2]
          unfold routeRaw
          by_cases hact : s.averager.active = true
          · obtain ⟨hc0, hv0⟩ := hwf hact
            have hflush := Flush_emits s.averager hact hc0 hv0
            have hfs := flushAvgStep_emit s _ _ hflush
            rw [hfs]
            refine ⟨⟨?_, ?_, ?_⟩, ?_, ?_⟩
            · exact Inv0_appendRow_wm sink0 _ _
                (Inv0_appendRow_wm sink0 _ _ (fun e w hw => hwm e w hw))
            · rw [averager_appendRow, averager_appendRow]
              intro hra
              exact absurd hra (by simp [minuteAverager.resetState])
            · exact cnt_appendRow _ _ (cnt_appendRow _ _ hcnt)
            · intro e t hcp
              rcases hcp with hcov | ⟨hpact, hpent, hpmv, hple⟩
              · exact Or.inl (covered_appendRow _ _ _ _ _ (covered_appendRow _ _ _ _ _ hcov))
              · refine Or.inl (covered_appendRow _ _ _ _ _
                  (covered_appendRow_self _ _ _ _ _ hpent s.averager.maxTime rfl hple))
            · intro t hc
              have hlt : lt = some t := Except.ok.inj hc
              refine Or.inl (covered_appendRow_self _ _ _ _ _ rfl t ?_ (le_refl t))
              rw [show (builtRow env src meta lt).lastUpdated = lt from rfl, hlt]
          · have hact' : s.averager.active = false := by simpa using hact
            have hfs : flushAvgStep s = s :=
              (flushAvgStep_none s s.averager (Flush_inactive _ hact')).trans rfl
            rw [hfs]
            refine ⟨⟨?_, ?_, ?_⟩, ?_, ?_⟩
            · exact Inv0_appendRow_wm sink0 _ _ (fun e w hw => hwm e w hw)
            · rw [averager_appendRow]
              intro hra
              rw [hra] at hact'
              cases hact'
            · exact cnt_appendRow _ _ hcnt
            · intro e t hcp
              rcases hcp with hcov | ⟨hpact, -, -, -⟩
              · exact Or.inl (covered_appendRow _ _ _ _ _ hcov)
              · rw [hact'] at hpact
                cases hpact
            · intro t hc
              have hlt : lt = some t := Except.ok.inj hc
              refine Or.inl (covered_appendRow_self _ _ _ _ _ rfl t ?_ (le_refl t))
              rw [show (builtRow env src meta lt).lastUpdated = lt from rfl, hlt]

/-- The invariant and the coverage of every processed reading survive the
whole scan loop. -/
lemma inv_processAll (env : Env) (sink0 : List energyRow) :
    ∀ (rows : List SourceRow) (s s' : PipelineState),
      processAll env s rows = Except.ok s' → Inv0 sink0 s →
      Inv0 sink0 s' ∧
      (∀ e t, coveredOrPending sink0 s e t → coveredOrPending sink0 s' e t) ∧
      (∀ src ∈ rows, ∀ t, floatToNullTime src.lastUpdatedVal = Except.ok (some t) →
        coveredOrPending sink0 s' src.entityID t) := by
  intro rows
  induction rows with
  | nil =>
    intro s s' h hinv
    have hss : s = s' := Except.ok.inj h
    subst hss
    exact ⟨hinv, fun e t hcp => hcp, fun src hsrc => absurd hsrc (List.not_mem_nil _)⟩
  | cons r rs ih =>
    intro s s' h hinv
    unfold processAll at h
    cases hstep : processRow env s r with
    | error e0 => rw [hstep] at h; exact absurd h (by simp)
    | ok s1 =>
      rw [hstep] at h
      obtain ⟨hinv1, hpres1, hown1⟩ := step_preserves env sink0 s s1 r hstep hinv
      obtain ⟨hinv2, hpres2, hown2⟩ := ih s1 s' h hinv1
      refine ⟨hinv2, fun e t hcp => hpres2 e t (hpres1 e t hcp), ?_⟩
      intro src hsrc t hc
      rcases List.mem_cons.mp hsrc with heq | hmem
      · subst heq
        exact hpres2 _ _ (hown1 t hc)
      · exact hown2 src hmem t hc

/-- At the end of a run the buffer is empty. -/
lemma finish_args_nil (s : PipelineState) (hc : s.rowCount = s.args.length) :
    (finishRun s).args = [] := by
  unfold finishRun
  have hc2 : (flushAvgStep s).rowCount = (flushAvgStep s).args.length := by
    cases hflush : s.averager.Flush with
    | mk m' em =>
      cases em with
      | none => rw [flushAvgStep_none s m' hflush]; exact hc
      | some r => rw [flushAvgStep_emit s m' r hflush]; exact cnt_appendRow _ _ hc
  unfold flushBatch
  by_cases h0 : (flushAvgStep s).rowCount = 0
  · rw [if_pos h0]
    rw [h0] at hc2
    exact (List.length_eq_zero.mp hc2.symm)
  · rw [if_neg h0]

/-- Finishing the run turns every accounted timestamp into a covered
one: a trailing open group is flushed into the writer. -/
lemma finish_covers (sink0 : List energyRow) (s : PipelineState) (hinv : Inv0 sink0 s)
    (e : String) (t : Int) (hcp : coveredOrPending sink0 s e t) :
    covered (sink0 ++ emittedRows (finishRun s)) e t := by
  obtain ⟨-, hwf, -⟩ := hinv
  unfold finishRun
  rw [emittedRows_flushBatch]
  rcases hcp with hcov | ⟨hact, hent, hmv, hle⟩
  · cases hflush : s.averager.Flush with
    | mk m' em =>
      cases em with
      | none => rw [flushAvgStep_none s m' hflush]; exact hcov
      | some r =>
        rw [flushAvgStep_emit s m' r hflush]
        exact covered_appendRow _ _ _ _ _ hcov
  · obtain ⟨hc0, hv0⟩ := hwf hact
    rw [flushAvgStep_emit s _ _ (Flush_emits s.averager hact hc0 hv0)]
    exact covered_appendRow_self _ _ _ _ _ hent s.averager.maxTime rfl hle

/-- With an empty buffer the rows handed to the writer are exactly the
executed batches. -/
lemma writes_eq_emitted (s' : PipelineState) (h : s'.args = []) :
    s'.writes.flatten = emittedRows s' := by
  unfold emittedRows
  rw [h]
  simp

/-- A run whose every reading sits at or below its entity's watermark is
one long skip. -/
lemma processAll_all_skip (env : Env) : ∀ (rows : List SourceRow) (s : PipelineState),
    (∀ src ∈ rows, ∃ t, floatToNullTime src.lastUpdatedVal = Except.ok (some t) ∧
      ∃ w, s.watermarks src.entityID = some w ∧ t ≤ w) →
    processAll env s rows = Except.ok s := by
  intro rows
  induction rows with
  | nil => intro s _; rfl
  | cons r rs ih =>
    intro s hall
    obtain ⟨t, hconv, w, hw, hle⟩ := hall r (List.mem_cons_self _ _)
    unfold processAll
    rw [processRow_skip env s r t w hconv hw hle]
    exact ih s (fun src hsrc => hall src (List.mem_cons_of_mem _ hsrc))

/-- C5 (amended): when every source reading carries a present observedAt
and the first run (from the watermarks loaded out of the sink) succeeds,
re-running the pipeline with watermarks loaded from the sink extended by
the first run's written rows skips every reading and emits nothing: the
second run ends in the fresh initial state, with no writes and an empty
buffer. -/
theorem run_twice_idempotent (env : Env) (sink0 : List energyRow)
    (rows : List SourceRow) (s1 : PipelineState)
    (hvalid : ∀ src ∈ rows, ∃ t, floatToNullTime src.lastUpdatedVal = Except.ok (some t))
    (h1 : runPipeline env (loadEnergyEntityWatermarks sink0) rows = Except.ok s1) :
    runPipeline env (loadEnergyEntityWatermarks (sink0 ++ s1.writes.flatten)) rows =
      Except.ok (initState (loadEnergyEntityWatermarks (sink0 ++ s1.writes.flatten))) := by
  unfold runPipeline at h1
  cases hall : processAll env (initState (loadEnergyEntityWatermarks sink0)) rows with
  | error e0 => rw [hall] at h1; exact absurd h1 (by simp)
  | ok sMid =>
    rw [hall] at h1
    have hs1 : s1 = finishRun sMid := (Except.ok.inj h1).symm
    have hinv0 : Inv0 sink0 (initState (loadEnergyEntityWatermarks sink0)) := by
      refine ⟨?_, ?_, rfl⟩
      · intro e w hw
        have hcov := covered_of_load sink0 e w hw
        have : covered (sink0 ++ []) e w := by
          rw [List.append_nil]
          exact hcov
        exact this
      · intro hact
        exact absurd hact (by simp [initState, newMinuteAverager, minuteAverager.resetState])
    obtain ⟨hinvMid, -, hcovAll⟩ := inv_processAll env sink0 rows _ sMid hall hinv0
    have hcover : ∀ src ∈ rows, ∀ t,
        floatToNullTime src.lastUpdatedVal = Except.ok (some t) →
        covered (sink0 ++ s1.writes.flatten) src.entityID t := by
      intro src hsrc t hc
      have hfin := finish_covers sink0 sMid hinvMid src.entityID t (hcovAll src hsrc t hc)
      rw [hs1, writes_eq_emitted _ (finish_args_nil sMid hinvMid.2.2)]
      exact hfin
    have hskip2 : ∀ src ∈ rows, ∃ t,
        floatToNullTime src.lastUpdatedVal = Except.ok (some t) ∧
        ∃ w, (initState (loadEnergyEntityWatermarks
          (sink0 ++ s1.writes.flatten))).watermarks src.entityID = some w ∧ t ≤ w := by
      intro src hsrc
      obtain ⟨t, hc⟩ := hvalid src hsrc
      obtain ⟨w, hw, hle⟩ := load_some_of_covered _ _ _ (hcover src hsrc t hc)
      exact ⟨t, hc, w, hw, hle⟩
    unfold runPipeline
    rw [processAll_all_skip env rows _ hskip2]
    rfl

/-- Witness: one reading with observedAt at the Unix epoch, first run from
the empty sink; the second run, with the watermark map loaded from the
first run's written rows, emits nothing and ends in the initial state. -/
theorem run_twice_idempotent_witness :
    runPipeline envNone (loadEnergyEntityWatermarks ([] ++ s1V.writes.flatten)) [srcV] =
      Except.ok (initState (loadEnergyEntityWatermarks ([] ++ s1V.writes.flatten))) := by
  have hconvV : floatToNullTime srcV.lastUpdatedVal = Except.ok (some 0) := by
    norm_num [srcV, floatToNullTime, ratTrunc, nsPerSecond, zeroTimeNs]
  refine run_twice_idempotent envNone [] [srcV] s1V ?_ ?_
  · intro src hsrc
    have hs : src = srcV := by simpa using hsrc
    subst hs
    exact ⟨0, hconvV⟩
  · have hstep : processRow envNone (initState (loadEnergyEntityWatermarks [])) srcV =
        Except.ok (appendRow (initState (loadEnergyEntityWatermarks [])) rowV) := by
      rw [processRow_eq envNone (initState (loadEnergyEntityWatermarks [])) srcV
        (some 0) energyMetadata.empty hconvV rfl rfl]
      rw [if_neg (by decide)]
      rfl
    have hall : processAll envNone (initState (loadEnergyEntityWatermarks [])) [srcV] =
        Except.ok (appendRow (initState (loadEnergyEntityWatermarks [])) rowV) := by
      unfold processAll
      rw [hstep]
      rfl
    show runPipeline envNone (loadEnergyEntityWatermarks []) [srcV] = Except.ok s1V
    unfold runPipeline
    rw [hall]
    rfl

/-- C5 counterexample: a reading whose observedAt is absent.  The first
run writes it (a NULL last_updated row); loading watermarks from the
populated sink still yields no entry for the entity, because SQL MAX
skips NULLs, so the second run writes the very same row again.  The
energy_points conflict key is the auto-assigned surrogate state_id, which
the INSERT omits, so this second write inserts a new distinct row rather
than a no-op overwrite: re-running the pipeline is not idempotent for
readings without a timestamp. -/
theorem run_twice_counterexample :
    runPipeline envNone (loadEnergyEntityWatermarks []) [srcN] = Except.ok sN1 ∧
    runPipeline envNone (loadEnergyEntityWatermarks ([] ++ sN1.writes.flatten)) [srcN] =
      Except.ok sN2 ∧
    sN2.writes.flatten = [rowN] :=
  ⟨rfl, rfl, rfl⟩

end HaTools
